import Mathlib

/-!
Shallow embedding of the coral-cloud change-control workflow
(src/models.py, src/utils.py, src/workflow.py).

Django model instances are embedded as Lean structures; the database is a
record of lists, one per table.  Each workflow operation is a function
taking the database and the in-memory request object (as the Python
functions do) and returning an `Except`-valued result together with the
database that holds every row persisted before a possible raise — Django
runs in autocommit here (`transaction` is imported by the source but never
used), so rows written before an exception stay written.

`timezone.now()` is modelled by the constant `clock` carried in the
database: the claims only ever ask whether a timestamp is populated, never
for its value.  `datetime.now().strftime` for the two-digit year is the
constant `yy` field.
-/

/-- Workflow statuses of `ChangeControlRequest.StatusChoices` (models.py). -/
inductive Status where
  | Draft
  | PendingDeptHead
  | PendingQARegistration
  | PendingCFTEvaluation
  | PendingRiskAssessment
  | PendingDocumentUpdate
  | PendingActionPlan
  | PendingQAEvaluation
  | PendingQAHeadApproval
  | PendingVerification
  | Closed
  | Rejected
deriving DecidableEq, Repr

/-- Impact levels of `ChangeControlRequest.ImpactLevelChoices`. -/
inductive ImpactLevel where
  | Minor
  | Major
  | Critical
deriving DecidableEq, Repr

/-- `qa_registration` validates the impact-level string against the choice
list; this is that membership test, returning the parsed level. -/
def ImpactLevel.fromString : String → Option ImpactLevel
  | "Minor" => some .Minor
  | "Major" => some .Major
  | "Critical" => some .Critical
  | _ => none

/-- Decisions of `CFTEvaluation.DecisionChoices`. -/
inductive Decision where
  | Approved
  | ApprovedWithConditions
  | Rejected
  | Pending
deriving DecidableEq, Repr

/-- Statuses of `RiskAssessment.StatusChoices`. -/
inductive RAStatus where
  | Pending
  | InProgress
  | Completed
  | Cancelled
deriving DecidableEq, Repr

/-- Statuses of `DocumentRevision.StatusChoices`. -/
inductive DRStatus where
  | Pending
  | InProgress
  | Completed
  | NotRequired
deriving DecidableEq, Repr

/-- Statuses of `ActionPlan.StatusChoices`. -/
inductive APStatus where
  | Pending
  | InProgress
  | Completed
  | Cancelled
deriving DecidableEq, Repr

/-- `Department` (models.py): unique code and optional head user. -/
structure Department where
  code : String
  head : Option Nat
deriving DecidableEq, Repr

/-- `ChangeControlRequest` (models.py).  Users are numeric ids; nullable
columns are `Option`; `rejection_reason` is a blank-able text column. -/
structure Request where
  id : Nat
  temporary_cc_number : String
  final_cc_number : Option String
  initiator : Nat
  department : Department
  title : String
  description : String
  impact_level : Option ImpactLevel
  target_completion_time : Option Nat
  qa_registered_by : Option Nat
  qa_registration_date : Option Nat
  status : Status
  current_step : Nat
  closed_at : Option Nat
  rejection_reason : String
  rejected_by : Option Nat
  rejected_at : Option Nat
deriving DecidableEq, Repr

/-- `CFTEvaluator` (models.py): assignment row, unique per
(request, department). -/
structure CFTEvaluator where
  request_id : Nat
  dept : String
  evaluator : Nat
deriving DecidableEq, Repr

/-- `CFTEvaluation` (models.py): one per (request, department) by the
`unique_together` constraint; `id` is the primary key `save()` writes by. -/
structure CFTEvaluation where
  id : Nat
  request_id : Nat
  dept : String
  evaluator : Nat
  impact_type : String
  decision : Decision
  risk_level : String
  evaluation_notes : String
  completed_at : Option Nat
deriving DecidableEq, Repr

/-- `RiskAssessment` (models.py): one-to-one with the request. -/
structure RiskAssessment where
  request_id : Nat
  assigned_to : Nat
  status : RAStatus
  findings : String
  recommendations : String
  completion_date : Option Nat
deriving DecidableEq, Repr

/-- `DocumentRevision` (models.py). -/
structure DocumentRevision where
  id : Nat
  request_id : Nat
  document_name : String
  document_code : String
  assigned_department : String
  status : DRStatus
  revision_notes : String
  revision_date : Option Nat
  revised_by : Option Nat
deriving DecidableEq, Repr

/-- `ActionPlan` (models.py). -/
structure ActionPlan where
  id : Nat
  request_id : Nat
  description : String
  responsible_person : Nat
  expected_timeline : Nat
  status : APStatus
  completion_date : Option Nat
  notes : String
deriving DecidableEq, Repr

/-- `WorkflowHistory` (models.py): append-only audit row. -/
structure WorkflowHistory where
  request_id : Nat
  step : Nat
  step_name : String
  actor : Nat
  action : String
  comments : String
  previous_status : Status
  new_status : Status
deriving DecidableEq, Repr

/-- The database: one list per table, plus the id counters and the frozen
clock and two-digit year. -/
structure DB where
  requests : List Request
  evaluators : List CFTEvaluator
  evaluations : List CFTEvaluation
  riskAssessments : List RiskAssessment
  documentRevisions : List DocumentRevision
  actionPlans : List ActionPlan
  history : List WorkflowHistory
  nextRequestId : Nat
  nextEvalId : Nat
  nextDocRevId : Nat
  nextActionId : Nat
  clock : Nat
  yy : String
deriving DecidableEq, Repr

/-- The source raises `django.core.exceptions.ValidationError` for every
guard failure. -/
inductive Err where
  | validation (msg : String)
deriving DecidableEq, Repr

instance {ε α : Type} [DecidableEq ε] [DecidableEq α] : DecidableEq (Except ε α)
  | .ok a, .ok b => if h : a = b then isTrue (by rw [h]) else isFalse (by simp [h])
  | .ok _, .error _ => isFalse (by simp)
  | .error _, .ok _ => isFalse (by simp)
  | .error a, .error b => if h : a = b then isTrue (by rw [h]) else isFalse (by simp [h])

/-- `request.save()`: write the mutated row back by primary key. -/
def saveRequest (db : DB) (r : Request) : DB :=
  { db with requests := db.requests.map (fun q => if q.id = r.id then r else q) }

/-- `evaluation.save()`: write the mutated evaluation row back by primary
key. -/
def saveEvaluation (db : DB) (e : CFTEvaluation) : DB :=
  { db with evaluations := db.evaluations.map (fun q => if q.id = e.id then e else q) }

/-- `risk_assessment.save()`: the table is one-to-one on the request, so the
request id is the key. -/
def saveRiskAssessment (db : DB) (ra : RiskAssessment) : DB :=
  { db with riskAssessments := db.riskAssessments.map (fun q => if q.request_id = ra.request_id then ra else q) }

/-- `action_plan.save()`. -/
def saveActionPlan (db : DB) (a : ActionPlan) : DB :=
  { db with actionPlans := db.actionPlans.map (fun q => if q.id = a.id then a else q) }

/-- `document_revision.save()`. -/
def saveDocumentRevision (db : DB) (d : DocumentRevision) : DB :=
  { db with documentRevisions := db.documentRevisions.map (fun q => if q.id = d.id then d else q) }

/-- Fetch a request row by primary key. -/
def getRequest (db : DB) (rid : Nat) : Option Request :=
  db.requests.find? (fun r => r.id == rid)

/-! ### utils.py -/

/-- `str.zfill(width)` for the non-negative numerals this code feeds it:
left-pad with zeros to at least `w` characters. -/
def zfill (w : Nat) (s : String) : String :=
  if s.length ≥ w then s else String.mk (List.replicate (w - s.length) '0') ++ s

/-- Python `int(s)` as used on the id suffixes: strip surrounding
whitespace, allow an optional sign, then decimal digits; anything else —
including the empty string — is a `ValueError`, i.e. `none`.  (Digit
grouping underscores are not modelled; no identifier in this system
produces them.) -/
def pyInt? (s : String) : Option Int :=
  let t := s.trim
  if t.startsWith "-" then ((t.drop 1).toNat?).map (fun n => -(n : Int))
  else if t.startsWith "+" then ((t.drop 1).toNat?).map (fun n => (n : Int))
  else t.toNat?.map (fun n => (n : Int))

/-- `number.split('/')[-1]`: the segment after the last slash. -/
def lastSegment (s : String) : String :=
  (s.splitOn "/").getLastD ""

/-- `generate_temp_cc_number` (utils.py lines 7-43): build the
`REQ/CC/YY/DEPT/` prefix, scan every existing temporary number with that
prefix, keep the running maximum of the parseable suffixes (parse failures
are skipped by the `except: continue`), and append max+1 zero-padded to
five digits. -/
def generate_temp_cc_number (db : DB) (department_code : String) : String :=
  let pref := "REQ/CC/" ++ db.yy ++ "/" ++ department_code ++ "/"
  let existing_numbers :=
    (db.requests.filter (fun r => r.temporary_cc_number.startsWith pref)).map
      (fun r => r.temporary_cc_number)
  let max_sequence := existing_numbers.foldl
    (fun acc number =>
      match pyInt? (lastSegment number) with
      | some sequence => if sequence > acc then sequence else acc
      | none => acc) (0 : Int)
  let next_sequence := max_sequence + 1
  pref ++ zfill 5 (toString next_sequence)

/-- `generate_final_cc_number` (utils.py lines 46-85): same computation over
the final numbers, with the generic `GEN` prefix when no department code is
given. -/
def generate_final_cc_number (db : DB) (department_code : Option String) : String :=
  let pref := match department_code with
    | some c => if c = "" then "REQ/CC/" ++ db.yy ++ "/GEN/" else "REQ/CC/" ++ db.yy ++ "/" ++ c ++ "/"
    | none => "REQ/CC/" ++ db.yy ++ "/GEN/"
  let existing_numbers :=
    (db.requests.filter (fun r =>
      match r.final_cc_number with
      | some n => n.startsWith pref
      | none => false)).filterMap (fun r => r.final_cc_number)
  let max_sequence := existing_numbers.foldl
    (fun acc number =>
      match pyInt? (lastSegment number) with
      | some sequence => if sequence > acc then sequence else acc
      | none => acc) (0 : Int)
  let next_sequence := max_sequence + 1
  pref ++ zfill 5 (toString next_sequence)

/-! ### workflow.py -/

/-- `log_workflow_history` (workflow.py lines 16-27): append one audit row;
`previous_status or request.status` / `new_status or request.status` means
an omitted status defaults to the current in-memory status of the request
object at the moment of the call. -/
def log_workflow_history (db : DB) (r : Request) (step : Nat) (step_name : String)
    (actor : Nat) (action : String) (comments : String)
    (previous_status new_status : Option Status) : DB :=
  { db with history := db.history ++
      [{ request_id := r.id, step := step, step_name := step_name, actor := actor,
         action := action, comments := comments,
         previous_status := previous_status.getD r.status,
         new_status := new_status.getD r.status }] }

/-- `route_to_dept_head` (workflow.py lines 70-100): Draft-only guard, the
department must have a head; advance to PendingDeptHead / step 2, save, log. -/
def route_to_dept_head (db : DB) (r : Request) (actor : Nat) : Except Err Request × DB :=
  if r.status ≠ Status.Draft then
    (.error (.validation "Request must be in Draft status to route to department head"), db)
  else
    match r.department.head with
    | none =>
        (.error (.validation "Department does not have a department head assigned"), db)
    | some _ =>
        let previous_status := r.status
        let r1 := { r with status := Status.PendingDeptHead, current_step := 2 }
        let db := saveRequest db r1
        let db := log_workflow_history db r1 2 "Department Head Feasibility" actor
          "Routed to department head" "Routed to head" (some previous_status) (some r1.status)
        (.ok r1, db)

/-- `initiate_request` (workflow.py lines 30-67): generate the temporary
number, create the Draft request, log the initiation entry, then auto-route
to the department head.  There is no transaction wrapper, so the created
rows persist even when the auto-route raises. -/
def initiate_request (db : DB) (user : Nat) (department : Option Department)
    (title description : String) : Except Err Request × DB :=
  match department with
  | none => (.error (.validation "Department is required to initiate a request"), db)
  | some department =>
      let temp_cc_number := generate_temp_cc_number db department.code
      let r : Request :=
        { id := db.nextRequestId, temporary_cc_number := temp_cc_number,
          final_cc_number := none, initiator := user, department := department,
          title := title, description := description, impact_level := none,
          target_completion_time := none, qa_registered_by := none,
          qa_registration_date := none, status := Status.Draft, current_step := 1,
          closed_at := none, rejection_reason := "", rejected_by := none,
          rejected_at := none }
      let db := { db with requests := db.requests ++ [r],
                          nextRequestId := db.nextRequestId + 1 }
      let db := log_workflow_history db r 1 "Initiation" user "Request initiated"
        ("Temporary CC number: " ++ temp_cc_number) none none
      route_to_dept_head db r user

/-- `dept_head_decision` (workflow.py lines 103-151): PendingDeptHead-only
guard, actor must be the department head; approve advances to QA
registration, reject sets status Rejected and the three rejection fields. -/
def dept_head_decision (db : DB) (r : Request) (actor : Nat) (approved : Bool)
    (rejection_reason : String) : Except Err Request × DB :=
  if r.status ≠ Status.PendingDeptHead then
    (.error (.validation "Request must be pending department head approval"), db)
  else if r.department.head ≠ some actor then
    (.error (.validation "Only the department head can make this decision"), db)
  else
    let previous_status := r.status
    if approved then
      let r1 := { r with status := Status.PendingQARegistration, current_step := 3 }
      let db := log_workflow_history db r1 2 "Department Head Feasibility" actor
        "Approved by department head" "" (some previous_status) (some r1.status)
      let db := saveRequest db r1
      (.ok r1, db)
    else
      let r1 := { r with
        status := Status.Rejected
        rejection_reason :=
          if rejection_reason = "" then "Rejected by department head"
          else rejection_reason
        rejected_by := some actor
        rejected_at := some db.clock
        current_step := 2 }
      let db := log_workflow_history db r1 2 "Department Head Feasibility" actor
        "Rejected by department head" rejection_reason
        (some previous_status) (some r1.status)
      let db := saveRequest db r1
      (.ok r1, db)

/-- The `request.risk_assessment` reverse one-to-one accessor:
`hasattr(request, 'risk_assessment')` is `isSome`, the access itself is the
found row. -/
def findRiskAssessment (db : DB) (rid : Nat) : Option RiskAssessment :=
  db.riskAssessments.find? (fun ra => ra.request_id == rid)

/-- Count of `CFTEvaluator.objects.filter(request=request)`. -/
def evaluatorCount (db : DB) (rid : Nat) : Nat :=
  (db.evaluators.filter (fun a => a.request_id == rid)).length

/-- Count of `CFTEvaluation.objects.filter(request=request)`. -/
def evaluationCount (db : DB) (rid : Nat) : Nat :=
  (db.evaluations.filter (fun e => e.request_id == rid)).length

/-- `create_risk_assessment` (workflow.py lines 318-357): return the
existing assessment if one exists, otherwise create one (assignee defaults
to the QA registrar, then the actor); if the request is still pending CFT
evaluation and the evaluator and evaluation counts agree, advance it to
PendingRiskAssessment; log with the defaulted (post-change) statuses.
Returns the assessment together with the possibly mutated request object. -/
def create_risk_assessment (db : DB) (r : Request) (actor : Nat)
    (assigned_to : Option Nat) : (RiskAssessment × Request) × DB :=
  match findRiskAssessment db r.id with
  | some ra => ((ra, r), db)
  | none =>
      let assignee := match assigned_to with
        | some u => u
        | none => match r.qa_registered_by with
          | some u => u
          | none => actor
      let ra : RiskAssessment :=
        { request_id := r.id, assigned_to := assignee, status := RAStatus.Pending,
          findings := "", recommendations := "", completion_date := none }
      let db := { db with riskAssessments := db.riskAssessments ++ [ra] }
      let (r, db) :=
        if r.status = Status.PendingCFTEvaluation then
          if evaluatorCount db r.id = evaluationCount db r.id then
            let r1 := { r with status := Status.PendingRiskAssessment, current_step := 5 }
            (r1, saveRequest db r1)
          else (r, db)
        else (r, db)
      let db := log_workflow_history db r 5 "Risk Assessment" actor
        "Risk assessment task created" "Assigned" none none
      ((ra, r), db)

/-- `qa_registration` (workflow.py lines 154-220): PendingQARegistration
guard, impact string validated against the choices, final number generated
when absent and checked for uniqueness; the request gets its registration
fields and moves to PendingCFTEvaluation / step 4; evaluator rows are
get-or-created per entry (entries missing a department or evaluator are
skipped); one audit row; Major/Critical auto-creates the risk assessment. -/
def qa_registration (db : DB) (r : Request) (actor : Nat)
    (final_cc_number : Option String) (impact_level : String)
    (cft_evaluators : List (Option String × Option Nat))
    (target_completion_time : Nat) : Except Err Request × DB :=
  if r.status ≠ Status.PendingQARegistration then
    (.error (.validation "Request must be pending QA registration"), db)
  else
    match ImpactLevel.fromString impact_level with
    | none => (.error (.validation "Invalid impact level"), db)
    | some lvl =>
        let previous_status := r.status
        let fcc := match final_cc_number with
          | some f => if f = "" then generate_final_cc_number db (some r.department.code) else f
          | none => generate_final_cc_number db (some r.department.code)
        if db.requests.any (fun q => q.final_cc_number == some fcc && q.id != r.id) then
          (.error (.validation "Final CC number already exists"), db)
        else
          let r1 := { r with
            final_cc_number := some fcc
            impact_level := some lvl
            target_completion_time := some target_completion_time
            qa_registered_by := some actor
            qa_registration_date := some db.clock
            status := Status.PendingCFTEvaluation
            current_step := 4 }
          let db := saveRequest db r1
          let db := cft_evaluators.foldl
            (fun db ed =>
              match ed.1, ed.2 with
              | some dept, some evaluator =>
                  if db.evaluators.any (fun a =>
                      a.request_id == r1.id && a.dept == dept && a.evaluator == evaluator)
                  then db
                  else { db with evaluators := db.evaluators ++
                          [{ request_id := r1.id, dept := dept, evaluator := evaluator }] }
              | _, _ => db) db
          let db := log_workflow_history db r1 3 "QA-QMS Registration" actor
            "QA registration completed" ("Final CC: " ++ fcc ++ ", Impact: " ++ impact_level)
            (some previous_status) (some r1.status)
          if lvl = ImpactLevel.Major ∨ lvl = ImpactLevel.Critical then
            let res := create_risk_assessment db r1 actor none
            (.ok res.1.2, res.2)
          else
            (.ok r1, db)

/-- The printed form of a decision, as the source interpolates it into the
audit comment. -/
def Decision.asString : Decision → String
  | .Approved => "Approved"
  | .ApprovedWithConditions => "Approved_with_Conditions"
  | .Rejected => "Rejected"
  | .Pending => "Pending"

/-- Lines 239-259 of `cft_evaluation`: `get_or_create` on the
(request, department) key — create the row with the payload (completion
timestamp only when the decision is not Pending), or overwrite the four
payload fields of the existing row and `save()` it by primary key (an
update sets the completion timestamp when the decision is not Pending and
otherwise leaves the old one). -/
def upsertEvaluation (db : DB) (r : Request) (actor : Nat) (department : Department)
    (impact_type : String) (decision : Decision) (risk_level : String)
    (evaluation_notes : String) : DB :=
  match db.evaluations.find? (fun e => e.request_id == r.id && e.dept == department.code) with
  | none =>
      { db with
        evaluations := db.evaluations ++
          [{ id := db.nextEvalId, request_id := r.id, dept := department.code,
             evaluator := actor, impact_type := impact_type, decision := decision,
             risk_level := risk_level, evaluation_notes := evaluation_notes,
             completed_at := if decision ≠ Decision.Pending then some db.clock else none }],
        nextEvalId := db.nextEvalId + 1 }
  | some e =>
      saveEvaluation db
        { e with impact_type := impact_type, decision := decision,
                 risk_level := risk_level, evaluation_notes := evaluation_notes,
                 completed_at :=
                   if decision ≠ Decision.Pending then some db.clock else e.completed_at }

/-- Lines 286-311 of `cft_evaluation`: the request mutation applied once
all evaluations are in — any Rejected decision rejects the request and
populates the rejection fields; otherwise Minor impact goes straight to
document update; otherwise a Completed risk assessment goes to document
update and anything else to risk assessment. -/
def cftNextRequest (db : DB) (r : Request) (actor : Nat) : Request :=
  if (db.evaluations.filter (fun e => e.request_id == r.id)).any
      (fun e => e.decision == Decision.Rejected) then
    { r with status := Status.Rejected,
             rejection_reason := "Rejected during CFT evaluation",
             rejected_by := some actor, rejected_at := some db.clock }
  else if r.impact_level = some ImpactLevel.Minor then
    { r with status := Status.PendingDocumentUpdate, current_step := 6 }
  else
    match findRiskAssessment db r.id with
    | some ra =>
        if ra.status = RAStatus.Completed then
          { r with status := Status.PendingDocumentUpdate, current_step := 6 }
        else
          { r with status := Status.PendingRiskAssessment, current_step := 5 }
    | none => { r with status := Status.PendingRiskAssessment, current_step := 5 }

/-- `cft_evaluation` (workflow.py lines 223-315): PendingCFTEvaluation
guard, the actor must be the assigned evaluator for the department; the
evaluation row is upserted on (request, department); one audit row is
always written with the defaulted statuses; then, if the evaluation count
has reached the evaluator count, the request moves as `cftNextRequest`
dictates.  Document uploads are not modelled (no claim touches them). -/
def cft_evaluation (db : DB) (r : Request) (actor : Nat) (department : Department)
    (impact_type : String) (decision : Decision) (risk_level : String)
    (evaluation_notes : String) : Except Err Request × DB :=
  if r.status ≠ Status.PendingCFTEvaluation then
    (.error (.validation "Request must be pending CFT evaluation"), db)
  else if ¬ db.evaluators.any (fun a =>
      a.request_id == r.id && a.dept == department.code && a.evaluator == actor) then
    (.error (.validation "User is not assigned as evaluator for this department"), db)
  else
    let db := upsertEvaluation db r actor department impact_type decision risk_level
      evaluation_notes
    let db := log_workflow_history db r 4 "CFT Evaluation" actor
      ("CFT evaluation completed for " ++ department.code)
      ("Decision: " ++ decision.asString ++ ", Risk: " ++ risk_level) none none
    if evaluatorCount db r.id = evaluationCount db r.id then
      let r1 := cftNextRequest db r actor
      (.ok r1, saveRequest db r1)
    else
      (.ok r, db)

/-- `complete_risk_assessment` (workflow.py lines 360-395): no request
status guard at all — only existence of the assessment and the assignee
check; completes the assessment and unconditionally moves the request to
PendingDocumentUpdate / step 6. -/
def complete_risk_assessment (db : DB) (r : Request) (actor : Nat)
    (findings recommendations : String) : Except Err RiskAssessment × DB :=
  match findRiskAssessment db r.id with
  | none => (.error (.validation "Risk assessment does not exist for this request"), db)
  | some ra =>
      if ra.assigned_to ≠ actor then
        (.error (.validation "Only the assigned user can complete the risk assessment"), db)
      else
        let ra1 := { ra with
          findings := findings
          recommendations := recommendations
          status := RAStatus.Completed
          completion_date := some db.clock }
        let db := saveRiskAssessment db ra1
        let previous_status := r.status
        let r1 := { r with status := Status.PendingDocumentUpdate, current_step := 6 }
        let db := saveRequest db r1
        let db := log_workflow_history db r1 5 "Risk Assessment" actor
          "Risk assessment completed" "" (some previous_status) (some r1.status)
        (.ok ra1, db)

/-- `document_management` (workflow.py lines 398-437): allowed while
pending document update or pending action plan; get-or-creates suggested
revision rows (lookup on request, name, code and assigned department);
when pending document update it re-saves step 6; always logs one entry
with the defaulted statuses. -/
def document_management (db : DB) (r : Request) (actor : Nat)
    (suggested_documents : List (String × String × String)) : Except Err Request × DB :=
  if r.status ≠ Status.PendingDocumentUpdate ∧ r.status ≠ Status.PendingActionPlan then
    (.error (.validation "Request is not in the correct status for document management"), db)
  else
    let db := suggested_documents.foldl
      (fun db doc =>
        if db.documentRevisions.any (fun d =>
            d.request_id == r.id && d.document_name == doc.1 &&
            d.document_code == doc.2.1 && d.assigned_department == doc.2.2)
        then db
        else { db with
          documentRevisions := db.documentRevisions ++
            [{ id := db.nextDocRevId, request_id := r.id, document_name := doc.1,
               document_code := doc.2.1, assigned_department := doc.2.2,
               status := DRStatus.Pending, revision_notes := "",
               revision_date := none, revised_by := none }]
          nextDocRevId := db.nextDocRevId + 1 }) db
    let (r, db) :=
      if r.status = Status.PendingDocumentUpdate then
        let r1 := { r with current_step := 6 }
        (r1, saveRequest db r1)
      else (r, db)
    let db := log_workflow_history db r 6 "Document Management" actor
      "Document revisions suggested/updated" "" none none
    (.ok r, db)

/-- `complete_document_revision` (workflow.py lines 440-478): the
permission check in the source is a no-op (`pass`), and there is no request
status guard; the revision row is completed, and when no Pending or
In-Progress revision remains and the request is pending document update it
advances to PendingActionPlan with one audit row. -/
def complete_document_revision (db : DB) (r : Request) (actor : Nat)
    (document_revision : DocumentRevision) (revision_notes : String) :
    Except Err DocumentRevision × DB :=
  let d1 := { document_revision with
    status := DRStatus.Completed
    revision_date := some db.clock
    revised_by := some actor
    revision_notes := revision_notes }
  let db := saveDocumentRevision db d1
  let pending_revisions := db.documentRevisions.filter (fun d =>
    d.request_id == r.id &&
    (d.status == DRStatus.Pending || d.status == DRStatus.InProgress))
  if pending_revisions.isEmpty then
    if r.status = Status.PendingDocumentUpdate then
      let previous_status := r.status
      let r1 := { r with status := Status.PendingActionPlan, current_step := 7 }
      let db := saveRequest db r1
      let db := log_workflow_history db r1 6 "Document Management" actor
        "All document revisions completed" "" (some previous_status) (some r1.status)
      (.ok d1, db)
    else (.ok d1, db)
  else (.ok d1, db)

/-- `action_plan_management` (workflow.py lines 481-518): PendingActionPlan
guard; creates the given action items as Pending rows, re-saves step 7 and
logs one entry with the defaulted statuses. -/
def action_plan_management (db : DB) (r : Request) (actor : Nat)
    (action_plans : List (String × Nat × Nat)) : Except Err Request × DB :=
  if r.status ≠ Status.PendingActionPlan then
    (.error (.validation "Request must be pending action plan"), db)
  else
    let db := action_plans.foldl
      (fun db a =>
        { db with
          actionPlans := db.actionPlans ++
            [{ id := db.nextActionId, request_id := r.id, description := a.1,
               responsible_person := a.2.1, expected_timeline := a.2.2,
               status := APStatus.Pending, completion_date := none, notes := "" }]
          nextActionId := db.nextActionId + 1 }) db
    let r1 := { r with current_step := 7 }
    let db := saveRequest db r1
    let db := log_workflow_history db r1 7 "Action Plan & Implementation" actor
      "Action plan created/updated" "" none none
    (.ok r1, db)

/-- `complete_action_plan` (workflow.py lines 521-557): no request status
guard — only the responsible-person check; the item is completed, and only
when no Pending or In-Progress item remains does the request advance to
PendingQAEvaluation with one audit row (no row is written otherwise). -/
def complete_action_plan (db : DB) (r : Request) (actor : Nat)
    (action_plan : ActionPlan) (notes : String) : Except Err ActionPlan × DB :=
  if action_plan.responsible_person ≠ actor then
    (.error (.validation "Only the responsible person can complete this action"), db)
  else
    let a1 := { action_plan with
      status := APStatus.Completed
      completion_date := some db.clock
      notes := notes }
    let db := saveActionPlan db a1
    let pending_actions := db.actionPlans.filter (fun a =>
      a.request_id == r.id &&
      (a.status == APStatus.Pending || a.status == APStatus.InProgress))
    if pending_actions.isEmpty then
      let previous_status := r.status
      let r1 := { r with status := Status.PendingQAEvaluation, current_step := 8 }
      let db := saveRequest db r1
      let db := log_workflow_history db r1 7 "Action Plan & Implementation" actor
        "All action plans completed" "" (some previous_status) (some r1.status)
      (.ok a1, db)
    else
      (.ok a1, db)

/-- `qa_final_evaluation` (workflow.py lines 560-602): PendingQAEvaluation
guard; checks `cft_complete` and `document_updates_complete`, and — only
for Major/Critical impact — `risk_assessment_closed` plus a Completed risk
assessment.  The `regulatory_filings_complete` argument is accepted but
never examined by the source.  On success the request advances to
PendingQAHeadApproval / step 9 with one audit row. -/
def qa_final_evaluation (db : DB) (r : Request) (actor : Nat)
    (cft_complete document_updates_complete risk_assessment_closed
     regulatory_filings_complete : Bool) (comments : String) :
    Except Err Request × DB :=
  if r.status ≠ Status.PendingQAEvaluation then
    (.error (.validation "Request must be pending QA evaluation"), db)
  else if ¬ cft_complete then
    (.error (.validation "CFT evaluations are not complete"), db)
  else if ¬ document_updates_complete then
    (.error (.validation "Document updates are not complete"), db)
  else if r.impact_level = some ImpactLevel.Major ∨ r.impact_level = some ImpactLevel.Critical then
    if ¬ risk_assessment_closed then
      (.error (.validation "Risk assessment is not closed"), db)
    else
      match findRiskAssessment db r.id with
      | none => (.error (.validation "Risk assessment must be completed"), db)
      | some ra =>
          if ra.status ≠ RAStatus.Completed then
            (.error (.validation "Risk assessment must be completed"), db)
          else
            let previous_status := r.status
            let r1 := { r with status := Status.PendingQAHeadApproval, current_step := 9 }
            let db := saveRequest db r1
            let db := log_workflow_history db r1 8 "QA Final Evaluation" actor
              "QA final evaluation completed" comments
              (some previous_status) (some r1.status)
            (.ok r1, db)
  else
    let previous_status := r.status
    let r1 := { r with status := Status.PendingQAHeadApproval, current_step := 9 }
    let db := saveRequest db r1
    let db := log_workflow_history db r1 8 "QA Final Evaluation" actor
      "QA final evaluation completed" comments (some previous_status) (some r1.status)
    (.ok r1, db)

/-- `qa_head_approval` (workflow.py lines 605-648): PendingQAHeadApproval
guard; approval advances to PendingVerification / step 10, refusal returns
the request to PendingActionPlan / step 7; one audit row either way. -/
def qa_head_approval (db : DB) (r : Request) (actor : Nat) (approved : Bool)
    (rejection_reason : String) : Except Err Request × DB :=
  if r.status ≠ Status.PendingQAHeadApproval then
    (.error (.validation "Request must be pending QA head approval"), db)
  else
    let previous_status := r.status
    if approved then
      let r1 := { r with status := Status.PendingVerification, current_step := 10 }
      let db := log_workflow_history db r1 9 "QA Head Approval" actor
        "Approved by QA head" "" (some previous_status) (some r1.status)
      let db := saveRequest db r1
      (.ok r1, db)
    else
      let r1 := { r with status := Status.PendingActionPlan, current_step := 7 }
      let db := log_workflow_history db r1 9 "QA Head Approval" actor
        "Returned for correction" rejection_reason (some previous_status) (some r1.status)
      let db := saveRequest db r1
      (.ok r1, db)

/-- `qa_closure` (workflow.py lines 689-707): Closed-only guard; writes the
final closure audit row with the defaulted statuses. -/
def qa_closure (db : DB) (r : Request) (actor : Nat) : Except Err Request × DB :=
  if r.status ≠ Status.Closed then
    (.error (.validation "Request must be closed before QA closure"), db)
  else
    let db := log_workflow_history db r 11 "QA Closure" actor
      "Change control request closed" "Request successfully closed" none none
    (.ok r, db)

/-- `post_implementation_verification` (workflow.py lines 651-686):
PendingVerification guard; `all` of the three booleans must hold; the
request is closed (status Closed, step 11, `closed_at` set), one audit row
is written, and `qa_closure` auto-chains for the final closure row. -/
def post_implementation_verification (db : DB) (r : Request) (actor : Nat)
    (change_implemented training_conducted no_adverse_impact : Bool)
    (comments : String) : Except Err Request × DB :=
  if r.status ≠ Status.PendingVerification then
    (.error (.validation "Request must be pending verification"), db)
  else if ¬ (change_implemented ∧ training_conducted ∧ no_adverse_impact) then
    (.error (.validation "All verification checks must pass"), db)
  else
    let previous_status := r.status
    let r1 := { r with status := Status.Closed, current_step := 11, closed_at := some db.clock }
    let db := saveRequest db r1
    let db := log_workflow_history db r1 10 "Post-Implementation Verification" actor
      "Verification completed" comments (some previous_status) (some r1.status)
    let res := qa_closure db r1 actor
    match res.1 with
    | .error e => (.error e, res.2)
    | .ok _ => (.ok r1, res.2)

/-! ### Shared derived notions and list lemmas -/

/-- Evaluation rows for one (request, department) pair. -/
def pairEvals (db : DB) (rid : Nat) (dept : String) : List CFTEvaluation :=
  db.evaluations.filter (fun e => e.request_id == rid && e.dept == dept)

/-- The assignment check of `cft_evaluation`:
`CFTEvaluator.objects.filter(request, department, evaluator).exists()`. -/
def isAssignedEvaluator (db : DB) (rid : Nat) (dept : String) (actor : Nat) : Bool :=
  db.evaluators.any (fun a => a.request_id == rid && a.dept == dept && a.evaluator == actor)

/-- The `REQ/CC/<YY>/<DEPT>/` prefix of temporary numbers. -/
def tempPrefixFor (db : DB) (code : String) : String :=
  "REQ/CC/" ++ db.yy ++ "/" ++ code ++ "/"

/-- Spec-side sequence base for C7: the maximum parseable numeric suffix
among existing temporary numbers sharing the prefix, with unparseable
suffixes skipped (`filterMap`), or 0 when there are none. -/
def maxTempSuffix (db : DB) (code : String) : Int :=
  ((((db.requests.filter (fun r =>
        r.temporary_cc_number.startsWith (tempPrefixFor db code))).map
      (fun r => r.temporary_cc_number)).filterMap
      (fun n => pyInt? (lastSegment n))).foldl max 0)

theorem foldl_skip_eq_foldl_max (l : List String) (a : Int) :
    l.foldl (fun acc number =>
      match pyInt? (lastSegment number) with
      | some sequence => if sequence > acc then sequence else acc
      | none => acc) a
    = (l.filterMap (fun n => pyInt? (lastSegment n))).foldl max a := by
  induction l generalizing a with
  | nil => rfl
  | cons x xs ih =>
      cases hfx : pyInt? (lastSegment x) with
      | none => simp only [List.foldl_cons, List.filterMap_cons, hfx, ih]
      | some s =>
          simp only [List.foldl_cons, List.filterMap_cons, hfx, ih, List.foldl_cons]
          congr 1
          rcases lt_or_ge a s with h | h
          · rw [if_pos h, max_eq_right (le_of_lt h)]
          · rw [if_neg (not_lt.2 h), max_eq_left h]

/-- C7: the generated temporary number is the department/year prefix
followed by the zero-padded successor of the maximum parseable numeric
suffix among existing numbers sharing that prefix (unparseable suffixes are
skipped); when no number shares the prefix the suffix is `00001`. -/
theorem C7_temp_number_max_suffix_plus_one (db : DB) (code : String) :
    generate_temp_cc_number db code
      = tempPrefixFor db code ++ zfill 5 (toString (maxTempSuffix db code + 1))
    ∧ ((db.requests.filter (fun r =>
          r.temporary_cc_number.startsWith (tempPrefixFor db code))) = [] →
        generate_temp_cc_number db code = tempPrefixFor db code ++ "00001") := by
  have hmain : generate_temp_cc_number db code
      = tempPrefixFor db code ++ zfill 5 (toString (maxTempSuffix db code + 1)) := by
    simp only [generate_temp_cc_number, maxTempSuffix, tempPrefixFor]
    rw [foldl_skip_eq_foldl_max]
  refine ⟨hmain, fun hnil => ?_⟩
  rw [hmain]
  unfold maxTempSuffix
  rw [hnil]
  rfl

/-- The empty database (year fixed to "25"), used to instantiate
hypotheses at concrete inputs. -/
def emptyDB : DB :=
  { requests := [], evaluators := [], evaluations := [], riskAssessments := [],
    documentRevisions := [], actionPlans := [], history := [], nextRequestId := 1,
    nextEvalId := 1, nextDocRevId := 1, nextActionId := 1, clock := 0, yy := "25" }

/-- Witness for C7: in an empty database the first number for department
QA in year 25 is `REQ/CC/25/QA/00001`. -/
theorem C7_temp_number_max_suffix_plus_one_witness :
    (emptyDB.requests.filter (fun r =>
        r.temporary_cc_number.startsWith (tempPrefixFor emptyDB "QA"))) = [] ∧
    generate_temp_cc_number emptyDB "QA" = tempPrefixFor emptyDB "QA" ++ "00001" :=
  ⟨rfl, (C7_temp_number_max_suffix_plus_one emptyDB "QA").2 rfl⟩

/-- Database integrity of the evaluation table: distinct rows, injective
primary key, injective (request, department) `unique_together` key, and
every primary key below the id counter.  These are exactly the constraints
the store enforces on `CFTEvaluation`. -/
def EvalTableWF (db : DB) : Prop :=
  db.evaluations.Nodup ∧
  (∀ q1 ∈ db.evaluations, ∀ q2 ∈ db.evaluations, q1.id = q2.id → q1 = q2) ∧
  (∀ q1 ∈ db.evaluations, ∀ q2 ∈ db.evaluations,
      q1.request_id = q2.request_id → q1.dept = q2.dept → q1 = q2) ∧
  (∀ q ∈ db.evaluations, q.id < db.nextEvalId)

instance (db : DB) : Decidable (EvalTableWF db) := by
  unfold EvalTableWF
  infer_instance

theorem map_id_of_key_ne {α : Type} (l : List α) (key : α → Nat) (k : Nat) (x : α)
    (h : ∀ q ∈ l, key q ≠ k) :
    l.map (fun q => if key q = k then x else q) = l := by
  induction l with
  | nil => rfl
  | cons a as ih =>
      rw [List.map_cons, if_neg (h a (List.mem_cons_self a as)),
        ih (fun q hq => h q (List.mem_cons_of_mem a hq))]

theorem find?_append_of_none {α : Type} (l1 l2 : List α) (p : α → Bool)
    (h : ∀ x ∈ l1, ¬ p x = true) :
    (l1 ++ l2).find? p = l2.find? p := by
  induction l1 with
  | nil => rfl
  | cons a as ih =>
      rw [List.cons_append, List.find?_cons_of_neg _ (h a (List.mem_cons_self a as)),
        ih (fun q hq => h q (List.mem_cons_of_mem a hq))]

/-- What one upsert (lines 239-259 of `cft_evaluation`) does to a
well-formed evaluation table: the table decomposes as `l1 ++ e1 :: l2`
where `e1` is the (request, department) row carrying the submitted payload,
no row of `l1`/`l2` matches the pair or the primary key of `e1`, the rows
of `l1`/`l2` are untouched rows of the original table, and the
(request, department) pair had at most the row replaced. -/
theorem upsertEvaluation_decomp (db : DB) (r : Request) (actor : Nat)
    (department : Department) (it : String) (dec : Decision) (rl nts : String)
    (hwf : EvalTableWF db) :
    ∃ l1 l2 e1,
      (upsertEvaluation db r actor department it dec rl nts).evaluations = l1 ++ e1 :: l2
      ∧ (∀ q ∈ l1, q ∈ db.evaluations) ∧ (∀ q ∈ l2, q ∈ db.evaluations)
      ∧ (∀ q ∈ l1, ¬ ((q.request_id == r.id && q.dept == department.code) = true))
      ∧ (∀ q ∈ l2, ¬ ((q.request_id == r.id && q.dept == department.code) = true))
      ∧ (∀ q ∈ l1, q.id ≠ e1.id) ∧ (∀ q ∈ l2, q.id ≠ e1.id)
      ∧ e1.request_id = r.id ∧ e1.dept = department.code
      ∧ e1.impact_type = it ∧ e1.decision = dec ∧ e1.risk_level = rl
      ∧ e1.evaluation_notes = nts
      ∧ (dec ≠ Decision.Pending → e1.completed_at = some db.clock)
      ∧ (dec = Decision.Pending →
          e1.completed_at =
            (match db.evaluations.find? (fun e =>
                e.request_id == r.id && e.dept == department.code) with
             | none => none
             | some e => e.completed_at))
      ∧ (upsertEvaluation db r actor department it dec rl nts).evaluations.length =
          (match db.evaluations.find? (fun e =>
              e.request_id == r.id && e.dept == department.code) with
           | none => db.evaluations.length + 1
           | some _ => db.evaluations.length) := by
  obtain ⟨hnd, hid, hpair, hbound⟩ := hwf
  unfold upsertEvaluation
  cases hfind : db.evaluations.find? (fun e =>
      e.request_id == r.id && e.dept == department.code) with
  | none =>
      have hnone := List.find?_eq_none.1 hfind
      refine ⟨db.evaluations, [],
        { id := db.nextEvalId, request_id := r.id, dept := department.code,
          evaluator := actor, impact_type := it, decision := dec, risk_level := rl,
          evaluation_notes := nts,
          completed_at := if dec ≠ Decision.Pending then some db.clock else none },
        ?_, ?_, ?_, ?_, ?_, ?_, ?_, ?_, ?_, ?_, ?_, ?_, ?_, ?_, ?_, ?_⟩
      · simp
      · exact fun q hq => hq
      · exact fun q hq => by cases hq
      · exact fun q hq => hnone q hq
      · exact fun q hq => by cases hq
      · exact fun q hq => Nat.ne_of_lt (hbound q hq)
      · exact fun q hq => by cases hq
      · rfl
      · rfl
      · rfl
      · rfl
      · rfl
      · rfl
      · exact fun hdec => by simp [hdec]
      · exact fun hdec => by simp [hdec]
      · simp
  | some e =>
      have hpe := List.find?_some hfind
      have hme := List.mem_of_find?_eq_some hfind
      rw [Bool.and_eq_true, beq_iff_eq, beq_iff_eq] at hpe
      obtain ⟨l1, l2, hl⟩ := List.append_of_mem hme
      have hnd' : (l1 ++ e :: l2).Nodup := hl ▸ hnd
      have hni : e ∉ l1 ++ l2 := (List.nodup_cons.1 (List.nodup_middle.1 hnd')).1
      have hsub1 : ∀ q ∈ l1, q ∈ db.evaluations := fun q hq =>
        hl ▸ List.mem_append.2 (Or.inl hq)
      have hsub2 : ∀ q ∈ l2, q ∈ db.evaluations := fun q hq =>
        hl ▸ List.mem_append.2 (Or.inr (List.mem_cons_of_mem e hq))
      have hnp1 : ∀ q ∈ l1, ¬ ((q.request_id == r.id && q.dept == department.code) = true) := by
        intro q hq hp
        rw [Bool.and_eq_true, beq_iff_eq, beq_iff_eq] at hp
        have hqe : q = e := hpair q (hsub1 q hq) e hme (hp.1.trans hpe.1.symm) (hp.2.trans hpe.2.symm)
        exact hni (List.mem_append.2 (Or.inl (hqe ▸ hq)))
      have hnp2 : ∀ q ∈ l2, ¬ ((q.request_id == r.id && q.dept == department.code) = true) := by
        intro q hq hp
        rw [Bool.and_eq_true, beq_iff_eq, beq_iff_eq] at hp
        have hqe : q = e := hpair q (hsub2 q hq) e hme (hp.1.trans hpe.1.symm) (hp.2.trans hpe.2.symm)
        exact hni (List.mem_append.2 (Or.inr (hqe ▸ hq)))
      have hnk1 : ∀ q ∈ l1, q.id ≠ e.id := by
        intro q hq hk
        have hqe : q = e := hid q (hsub1 q hq) e hme hk
        exact hni (List.mem_append.2 (Or.inl (hqe ▸ hq)))
      have hnk2 : ∀ q ∈ l2, q.id ≠ e.id := by
        intro q hq hk
        have hqe : q = e := hid q (hsub2 q hq) e hme hk
        exact hni (List.mem_append.2 (Or.inr (hqe ▸ hq)))
      refine ⟨l1, l2,
        { e with impact_type := it, decision := dec, risk_level := rl,
                 evaluation_notes := nts,
                 completed_at := if dec ≠ Decision.Pending then some db.clock
                                 else e.completed_at }, ?_,
        hsub1, hsub2, hnp1, hnp2, hnk1, hnk2, hpe.1, hpe.2, rfl, rfl, rfl, rfl,
        ?_, ?_, ?_⟩
      · show (saveEvaluation db _).evaluations = _
        unfold saveEvaluation
        simp only [hl, List.map_append, List.map_cons]
        rw [map_id_of_key_ne l1 CFTEvaluation.id e.id _ hnk1,
          map_id_of_key_ne l2 CFTEvaluation.id e.id _ hnk2]
        simp
      · intro hdec
        simp only [if_pos hdec]
      · intro hdec
        simp only [hdec, ne_eq, not_true_eq_false, if_false]
      · show (saveEvaluation db _).evaluations.length = _
        unfold saveEvaluation
        simp [hl]

/-- The database state of `cft_evaluation` after its upsert and audit row,
right before the completion-threshold check. -/
def cftLoggedDB (db : DB) (r : Request) (actor : Nat) (department : Department)
    (it : String) (dec : Decision) (rl nts : String) : DB :=
  log_workflow_history (upsertEvaluation db r actor department it dec rl nts) r 4
    "CFT Evaluation" actor ("CFT evaluation completed for " ++ department.code)
    ("Decision: " ++ dec.asString ++ ", Risk: " ++ rl) none none

theorem upsertEvaluation_untouched (db : DB) (r : Request) (actor : Nat)
    (department : Department) (it : String) (dec : Decision) (rl nts : String) :
    (upsertEvaluation db r actor department it dec rl nts).requests = db.requests
    ∧ (upsertEvaluation db r actor department it dec rl nts).evaluators = db.evaluators
    ∧ (upsertEvaluation db r actor department it dec rl nts).riskAssessments
        = db.riskAssessments
    ∧ (upsertEvaluation db r actor department it dec rl nts).history = db.history
    ∧ (upsertEvaluation db r actor department it dec rl nts).clock = db.clock := by
  unfold upsertEvaluation saveEvaluation
  cases db.evaluations.find? (fun e => e.request_id == r.id && e.dept == department.code) <;>
    exact ⟨rfl, rfl, rfl, rfl, rfl⟩

/-- With both guards of `cft_evaluation` satisfied the call reduces to its
upsert, audit row and threshold branch. -/
theorem cft_evaluation_eq (db : DB) (r : Request) (actor : Nat)
    (department : Department) (it : String) (dec : Decision) (rl nts : String)
    (hst : r.status = Status.PendingCFTEvaluation)
    (hass : isAssignedEvaluator db r.id department.code actor = true) :
    cft_evaluation db r actor department it dec rl nts =
      (if evaluatorCount (cftLoggedDB db r actor department it dec rl nts) r.id
          = evaluationCount (cftLoggedDB db r actor department it dec rl nts) r.id then
        (Except.ok (cftNextRequest (cftLoggedDB db r actor department it dec rl nts) r actor),
         saveRequest (cftLoggedDB db r actor department it dec rl nts)
           (cftNextRequest (cftLoggedDB db r actor department it dec rl nts) r actor))
      else (Except.ok r, cftLoggedDB db r actor department it dec rl nts)) := by
  have hass' : db.evaluators.any (fun a =>
      a.request_id == r.id && a.dept == department.code && a.evaluator == actor) = true := hass
  unfold cft_evaluation
  rw [if_neg (by simp [hst]), if_neg (by simp [hass'])]
  rfl

theorem cftLoggedDB_requests (db : DB) (r : Request) (actor : Nat)
    (department : Department) (it : String) (dec : Decision) (rl nts : String) :
    (cftLoggedDB db r actor department it dec rl nts).requests = db.requests :=
  (upsertEvaluation_untouched db r actor department it dec rl nts).1

theorem cftLoggedDB_riskAssessments (db : DB) (r : Request) (actor : Nat)
    (department : Department) (it : String) (dec : Decision) (rl nts : String) :
    (cftLoggedDB db r actor department it dec rl nts).riskAssessments
      = db.riskAssessments :=
  (upsertEvaluation_untouched db r actor department it dec rl nts).2.2.1

theorem upsertEvaluation_pair (db : DB) (r : Request) (actor : Nat)
    (department : Department) (it : String) (dec : Decision) (rl nts : String)
    (hwf : EvalTableWF db) :
    ∃ e1, pairEvals (upsertEvaluation db r actor department it dec rl nts) r.id
        department.code = [e1]
      ∧ e1.request_id = r.id ∧ e1.dept = department.code
      ∧ e1.impact_type = it ∧ e1.decision = dec ∧ e1.risk_level = rl
      ∧ e1.evaluation_notes = nts := by
  obtain ⟨l1, l2, e1, heq, -, -, hnp1, hnp2, -, -, hrid, hdept, hit, hdec, hrl, hnts,
    -, -, -⟩ := upsertEvaluation_decomp db r actor department it dec rl nts hwf
  refine ⟨e1, ?_, hrid, hdept, hit, hdec, hrl, hnts⟩
  unfold pairEvals
  rw [heq, List.filter_append, List.filter_eq_nil_iff.2 hnp1,
    List.filter_cons_of_pos (by simp [hrid, hdept]), List.filter_eq_nil_iff.2 hnp2]
  rfl

/-- C1: with the status and assignment guards satisfied,
`cft_evaluation` returns ok, leaves exactly one evaluation row for the
(request, department) pair, and — when the evaluation count now equals the
evaluator count — sets the status to Rejected when some evaluation of the
request is Rejected, else to PendingDocumentUpdate for Minor impact, else
to PendingDocumentUpdate when a Completed risk assessment exists and to
PendingRiskAssessment otherwise; when the counts differ the returned
request and the stored request rows are unchanged. -/
theorem C1_cft_submission_outcome (db : DB) (r : Request) (actor : Nat)
    (department : Department) (it : String) (dec : Decision) (rl nts : String)
    (hwf : EvalTableWF db)
    (hst : r.status = Status.PendingCFTEvaluation)
    (hass : isAssignedEvaluator db r.id department.code actor = true) :
    ∃ r1 db1, cft_evaluation db r actor department it dec rl nts = (Except.ok r1, db1)
      ∧ (pairEvals db1 r.id department.code).length = 1
      ∧ (evaluatorCount db1 r.id = evaluationCount db1 r.id →
          ((∃ e ∈ db1.evaluations, e.request_id = r.id ∧ e.decision = Decision.Rejected) →
              r1.status = Status.Rejected)
          ∧ (¬ (∃ e ∈ db1.evaluations, e.request_id = r.id ∧ e.decision = Decision.Rejected) →
              (r.impact_level = some ImpactLevel.Minor →
                  r1.status = Status.PendingDocumentUpdate)
              ∧ (r.impact_level ≠ some ImpactLevel.Minor →
                  ((∃ ra, findRiskAssessment db r.id = some ra
                      ∧ ra.status = RAStatus.Completed) →
                      r1.status = Status.PendingDocumentUpdate)
                  ∧ (¬ (∃ ra, findRiskAssessment db r.id = some ra
                        ∧ ra.status = RAStatus.Completed) →
                      r1.status = Status.PendingRiskAssessment))))
      ∧ (evaluatorCount db1 r.id ≠ evaluationCount db1 r.id →
          r1 = r ∧ db1.requests = db.requests) := by
  rw [cft_evaluation_eq db r actor department it dec rl nts hst hass]
  obtain ⟨e1, hpair, hfacts⟩ := upsertEvaluation_pair db r actor department it dec rl nts hwf
  have hraeq : findRiskAssessment (cftLoggedDB db r actor department it dec rl nts) r.id
      = findRiskAssessment db r.id := by
    unfold findRiskAssessment
    rw [cftLoggedDB_riskAssessments]
  by_cases hc : evaluatorCount (cftLoggedDB db r actor department it dec rl nts) r.id
      = evaluationCount (cftLoggedDB db r actor department it dec rl nts) r.id
  · rw [if_pos hc]
    refine ⟨_, _, rfl, ?_, ?_, ?_⟩
    · show (pairEvals (upsertEvaluation db r actor department it dec rl nts) r.id
        department.code).length = 1
      rw [hpair]
      rfl
    · intro _
      constructor
      · intro hex
        have hany : ((cftLoggedDB db r actor department it dec rl nts).evaluations.filter
            (fun e => e.request_id == r.id)).any
            (fun e => e.decision == Decision.Rejected) = true := by
          obtain ⟨e, he, herid, hedec⟩ := hex
          simp only [List.any_eq_true, List.mem_filter, Bool.and_eq_true, beq_iff_eq]
          exact ⟨e, ⟨he, herid⟩, hedec⟩
        unfold cftNextRequest
        rw [if_pos hany]
      · intro hnex
        cases hb : ((cftLoggedDB db r actor department it dec rl nts).evaluations.filter
            (fun e => e.request_id == r.id)).any
            (fun e => e.decision == Decision.Rejected) with
        | true =>
            exfalso
            apply hnex
            have := hb
            simp only [List.any_eq_true, List.mem_filter, Bool.and_eq_true,
              beq_iff_eq] at this
            obtain ⟨e, ⟨he, herid⟩, hedec⟩ := this
            exact ⟨e, he, herid, hedec⟩
        | false =>
            constructor
            · intro hminor
              unfold cftNextRequest
              rw [if_neg (by simp [hb]), if_pos hminor]
            · intro hnminor
              unfold cftNextRequest
              rw [if_neg (by simp [hb]), if_neg hnminor, hraeq]
              constructor
              · intro hracomp
                obtain ⟨ra, hra, hcomp⟩ := hracomp
                rw [hra]
                simp [hcomp]
              · intro hnra
                cases hra : findRiskAssessment db r.id with
                | none => rfl
                | some ra =>
                    have hnc : ¬ ra.status = RAStatus.Completed := by
                      intro hcc
                      exact hnra ⟨ra, hra, hcc⟩
                    simp [hnc]
    · intro hne
      exact absurd hc hne
  · rw [if_neg hc]
    refine ⟨r, _, rfl, ?_, fun hceq => absurd hceq hc, fun _ => ⟨rfl, ?_⟩⟩
    · show (pairEvals (upsertEvaluation db r actor department it dec rl nts) r.id
        department.code).length = 1
      rw [hpair]
      rfl
    · exact cftLoggedDB_requests db r actor department it dec rl nts

/-- A QA department with head user 10. -/
def deptQA : Department := { code := "QA", head := some 10 }

/-- A PD department with head user 11. -/
def deptPD : Department := { code := "PD", head := some 11 }

/-- A registered Major-impact request pending CFT evaluation, used to
instantiate the general theorems. -/
def wReq : Request :=
  { id := 1, temporary_cc_number := "REQ/CC/25/QA/00001",
    final_cc_number := some "REQ/CC/25/QA/00001", initiator := 1,
    department := deptQA, title := "t", description := "d",
    impact_level := some ImpactLevel.Major, target_completion_time := some 10,
    qa_registered_by := some 20, qa_registration_date := some 0,
    status := Status.PendingCFTEvaluation, current_step := 4, closed_at := none,
    rejection_reason := "", rejected_by := none, rejected_at := none }

/-- A database holding `wReq` with two assigned evaluators (user 30 for QA,
user 31 for PD) and no evaluations yet. -/
def wDB : DB :=
  { emptyDB with
    requests := [wReq]
    evaluators := [{ request_id := 1, dept := "QA", evaluator := 30 },
                   { request_id := 1, dept := "PD", evaluator := 31 }]
    nextRequestId := 2 }

/-- Witness for C1 at a concrete input: user 30 submits the QA evaluation
of `wReq` while the PD evaluation is still missing. -/
theorem C1_cft_submission_outcome_witness :
    EvalTableWF wDB ∧ wReq.status = Status.PendingCFTEvaluation
    ∧ isAssignedEvaluator wDB wReq.id deptQA.code 30 = true
    ∧ (∃ r1 db1, cft_evaluation wDB wReq 30 deptQA "Quality" Decision.Approved "Low" ""
          = (Except.ok r1, db1)
      ∧ (pairEvals db1 wReq.id deptQA.code).length = 1
      ∧ (evaluatorCount db1 wReq.id = evaluationCount db1 wReq.id →
          ((∃ e ∈ db1.evaluations, e.request_id = wReq.id ∧ e.decision = Decision.Rejected) →
              r1.status = Status.Rejected)
          ∧ (¬ (∃ e ∈ db1.evaluations, e.request_id = wReq.id ∧ e.decision = Decision.Rejected) →
              (wReq.impact_level = some ImpactLevel.Minor →
                  r1.status = Status.PendingDocumentUpdate)
              ∧ (wReq.impact_level ≠ some ImpactLevel.Minor →
                  ((∃ ra, findRiskAssessment wDB wReq.id = some ra
                      ∧ ra.status = RAStatus.Completed) →
                      r1.status = Status.PendingDocumentUpdate)
                  ∧ (¬ (∃ ra, findRiskAssessment wDB wReq.id = some ra
                        ∧ ra.status = RAStatus.Completed) →
                      r1.status = Status.PendingRiskAssessment))))
      ∧ (evaluatorCount db1 wReq.id ≠ evaluationCount db1 wReq.id →
          r1 = wReq ∧ db1.requests = wDB.requests)) :=
  ⟨by decide, rfl, by decide,
    C1_cft_submission_outcome wDB wReq 30 deptQA "Quality" Decision.Approved "Low" ""
      (by decide) rfl (by decide)⟩

theorem cftLoggedDB_evaluators (db : DB) (r : Request) (actor : Nat)
    (department : Department) (it : String) (dec : Decision) (rl nts : String) :
    (cftLoggedDB db r actor department it dec rl nts).evaluators = db.evaluators :=
  (upsertEvaluation_untouched db r actor department it dec rl nts).2.1

theorem cftLoggedDB_evaluatorCount (db : DB) (r : Request) (actor : Nat)
    (department : Department) (it : String) (dec : Decision) (rl nts : String)
    (rid : Nat) :
    evaluatorCount (cftLoggedDB db r actor department it dec rl nts) rid
      = evaluatorCount db rid := by
  unfold evaluatorCount
  rw [cftLoggedDB_evaluators]

/-- The per-request evaluation count after an upsert: one more row when the
pair was absent, the same count when the pair row was updated in place. -/
theorem upsertEvaluation_count (db : DB) (r : Request) (actor : Nat)
    (department : Department) (it : String) (dec : Decision) (rl nts : String)
    (hwf : EvalTableWF db) :
    evaluationCount (upsertEvaluation db r actor department it dec rl nts) r.id
      = (match db.evaluations.find? (fun e =>
            e.request_id == r.id && e.dept == department.code) with
         | none => evaluationCount db r.id + 1
         | some _ => evaluationCount db r.id) := by
  obtain ⟨hnd, hid, hpair, hbound⟩ := hwf
  unfold upsertEvaluation
  cases hfind : db.evaluations.find? (fun e =>
      e.request_id == r.id && e.dept == department.code) with
  | none =>
      unfold evaluationCount
      simp
  | some e =>
      have hpe := List.find?_some hfind
      have hme := List.mem_of_find?_eq_some hfind
      rw [Bool.and_eq_true, beq_iff_eq, beq_iff_eq] at hpe
      obtain ⟨l1, l2, hl⟩ := List.append_of_mem hme
      have hnd' : (l1 ++ e :: l2).Nodup := hl ▸ hnd
      have hni : e ∉ l1 ++ l2 := (List.nodup_cons.1 (List.nodup_middle.1 hnd')).1
      have hsub1 : ∀ q ∈ l1, q ∈ db.evaluations := fun q hq =>
        hl ▸ List.mem_append.2 (Or.inl hq)
      have hsub2 : ∀ q ∈ l2, q ∈ db.evaluations := fun q hq =>
        hl ▸ List.mem_append.2 (Or.inr (List.mem_cons_of_mem e hq))
      have hnk1 : ∀ q ∈ l1, q.id ≠ e.id := by
        intro q hq hk
        have hqe : q = e := hid q (hsub1 q hq) e hme hk
        exact hni (List.mem_append.2 (Or.inl (hqe ▸ hq)))
      have hnk2 : ∀ q ∈ l2, q.id ≠ e.id := by
        intro q hq hk
        have hqe : q = e := hid q (hsub2 q hq) e hme hk
        exact hni (List.mem_append.2 (Or.inr (hqe ▸ hq)))
      unfold evaluationCount saveEvaluation
      simp only [hl, List.map_append, List.map_cons]
      rw [map_id_of_key_ne l1 CFTEvaluation.id e.id _ hnk1,
        map_id_of_key_ne l2 CFTEvaluation.id e.id _ hnk2]
      simp [List.filter_append, List.filter_cons, hpe.1]

/-- One upsert preserves the integrity constraints of the evaluation
table. -/
theorem upsertEvaluation_WF (db : DB) (r : Request) (actor : Nat)
    (department : Department) (it : String) (dec : Decision) (rl nts : String)
    (hwf : EvalTableWF db) :
    EvalTableWF (upsertEvaluation db r actor department it dec rl nts) := by
  obtain ⟨hnd, hid, hpair, hbound⟩ := hwf
  unfold upsertEvaluation
  cases hfind : db.evaluations.find? (fun e =>
      e.request_id == r.id && e.dept == department.code) with
  | none =>
      have hnone := List.find?_eq_none.1 hfind
      refine ⟨?_, ?_, ?_, ?_⟩
      · refine List.Nodup.append hnd (List.nodup_singleton _) ?_
        intro x hx hx1
        rw [List.mem_singleton] at hx1
        subst hx1
        exact hnone _ hx (by simp)
      · intro q1 hq1 q2 hq2 hidq
        rcases List.mem_append.1 hq1 with h1 | h1 <;>
          rcases List.mem_append.1 hq2 with h2 | h2
        · exact hid q1 h1 q2 h2 hidq
        · rw [List.mem_singleton] at h2
          subst h2
          exact absurd hidq (Nat.ne_of_lt (hbound q1 h1))
        · rw [List.mem_singleton] at h1
          subst h1
          exact absurd hidq.symm (Nat.ne_of_lt (hbound q2 h2))
        · rw [List.mem_singleton] at h1 h2
          subst h1
          subst h2
          rfl
      · intro q1 hq1 q2 hq2 hrr hdd
        rcases List.mem_append.1 hq1 with h1 | h1 <;>
          rcases List.mem_append.1 hq2 with h2 | h2
        · exact hpair q1 h1 q2 h2 hrr hdd
        · rw [List.mem_singleton] at h2
          subst h2
          exact absurd (by simp [hrr, hdd]) (hnone q1 h1)
        · rw [List.mem_singleton] at h1
          subst h1
          exact absurd (by simp [hrr.symm, hdd.symm]) (hnone q2 h2)
        · rw [List.mem_singleton] at h1 h2
          subst h1
          subst h2
          rfl
      · intro q hq
        rcases List.mem_append.1 hq with h | h
        · exact Nat.lt_trans (hbound q h) (Nat.lt_succ_self _)
        · rw [List.mem_singleton] at h
          subst h
          exact Nat.lt_succ_self _
  | some e =>
      have hpe := List.find?_some hfind
      have hme := List.mem_of_find?_eq_some hfind
      rw [Bool.and_eq_true, beq_iff_eq, beq_iff_eq] at hpe
      obtain ⟨l1, l2, hl⟩ := List.append_of_mem hme
      have hnd' : (l1 ++ e :: l2).Nodup := hl ▸ hnd
      have hnd12 : (e :: (l1 ++ l2)).Nodup := List.nodup_middle.1 hnd'
      have hni : e ∉ l1 ++ l2 := (List.nodup_cons.1 hnd12).1
      have hsub1 : ∀ q ∈ l1, q ∈ db.evaluations := fun q hq =>
        hl ▸ List.mem_append.2 (Or.inl hq)
      have hsub2 : ∀ q ∈ l2, q ∈ db.evaluations := fun q hq =>
        hl ▸ List.mem_append.2 (Or.inr (List.mem_cons_of_mem e hq))
      have hnp1 : ∀ q ∈ l1, ¬ ((q.request_id == r.id && q.dept == department.code) = true) := by
        intro q hq hp
        rw [Bool.and_eq_true, beq_iff_eq, beq_iff_eq] at hp
        have hqe : q = e :=
          hpair q (hsub1 q hq) e hme (hp.1.trans hpe.1.symm) (hp.2.trans hpe.2.symm)
        exact hni (List.mem_append.2 (Or.inl (hqe ▸ hq)))
      have hnp2 : ∀ q ∈ l2, ¬ ((q.request_id == r.id && q.dept == department.code) = true) := by
        intro q hq hp
        rw [Bool.and_eq_true, beq_iff_eq, beq_iff_eq] at hp
        have hqe : q = e :=
          hpair q (hsub2 q hq) e hme (hp.1.trans hpe.1.symm) (hp.2.trans hpe.2.symm)
        exact hni (List.mem_append.2 (Or.inr (hqe ▸ hq)))
      have hnk1 : ∀ q ∈ l1, q.id ≠ e.id := by
        intro q hq hk
        have hqe : q = e := hid q (hsub1 q hq) e hme hk
        exact hni (List.mem_append.2 (Or.inl (hqe ▸ hq)))
      have hnk2 : ∀ q ∈ l2, q.id ≠ e.id := by
        intro q hq hk
        have hqe : q = e := hid q (hsub2 q hq) e hme hk
        exact hni (List.mem_append.2 (Or.inr (hqe ▸ hq)))
      set e1 : CFTEvaluation :=
        { e with impact_type := it, decision := dec, risk_level := rl,
                 evaluation_notes := nts,
                 completed_at := if dec ≠ Decision.Pending then some db.clock
                                 else e.completed_at } with he1
      have hmap : (saveEvaluation db e1).evaluations = l1 ++ e1 :: l2 := by
        unfold saveEvaluation
        simp only [hl, List.map_append, List.map_cons]
        rw [show e1.id = e.id from rfl, map_id_of_key_ne l1 CFTEvaluation.id e.id _ hnk1,
          map_id_of_key_ne l2 CFTEvaluation.id e.id _ hnk2]
        simp
      have hcases : ∀ q, q ∈ l1 ++ e1 :: l2 →
          q = e1 ∨ (q ∈ db.evaluations ∧ q.id ≠ e.id
            ∧ ¬ ((q.request_id == r.id && q.dept == department.code) = true)) := by
        intro q hq
        rcases List.mem_append.1 hq with h | h
        · exact Or.inr ⟨hsub1 q h, hnk1 q h, hnp1 q h⟩
        · rcases List.mem_cons.1 h with h | h
          · exact Or.inl h
          · exact Or.inr ⟨hsub2 q h, hnk2 q h, hnp2 q h⟩
      refine ⟨?_, ?_, ?_, ?_⟩
      · rw [hmap, List.nodup_middle]
        refine List.nodup_cons.2 ⟨?_, (List.nodup_cons.1 hnd12).2⟩
        intro hmem
        have he1l : e1 ∈ db.evaluations := by
          rw [hl]
          rcases List.mem_append.1 hmem with h | h
          · exact List.mem_append.2 (Or.inl h)
          · exact List.mem_append.2 (Or.inr (List.mem_cons_of_mem e h))
        have he1e : e1 = e := hid e1 he1l e hme rfl
        rw [he1e] at hmem
        exact hni hmem
      · intro q1 hq1 q2 hq2 hidq
        rw [hmap] at hq1 hq2
        rcases hcases q1 hq1 with h1 | ⟨hm1, hk1, -⟩ <;>
          rcases hcases q2 hq2 with h2 | ⟨hm2, hk2, -⟩
        · rw [h1, h2]
        · subst h1
          exact absurd hidq.symm hk2
        · subst h2
          exact absurd hidq hk1
        · exact hid q1 hm1 q2 hm2 hidq
      · intro q1 hq1 q2 hq2 hrr hdd
        rw [hmap] at hq1 hq2
        rcases hcases q1 hq1 with h1 | ⟨hm1, -, hp1⟩ <;>
          rcases hcases q2 hq2 with h2 | ⟨hm2, -, hp2⟩
        · rw [h1, h2]
        · subst h1
          have h1r : q2.request_id = r.id := hrr.symm.trans hpe.1
          have h1d : q2.dept = department.code := hdd.symm.trans hpe.2
          exact absurd (show (q2.request_id == r.id && q2.dept == department.code) = true by
            simp [h1r, h1d]) hp2
        · subst h2
          have h1r : q1.request_id = r.id := hrr.trans hpe.1
          have h1d : q1.dept = department.code := hdd.trans hpe.2
          exact absurd (show (q1.request_id == r.id && q1.dept == department.code) = true by
            simp [h1r, h1d]) hp1
        · exact hpair q1 hm1 q2 hm2 hrr hdd
      · intro q hq
        rw [hmap] at hq
        rcases hcases q hq with h | ⟨hm, -, -⟩
        · subst h
          exact hbound e hme
        · exact hbound q hm

theorem find?_eq_head?_filter {α : Type} (l : List α) (p : α → Bool) :
    l.find? p = (l.filter p).head? := by
  induction l with
  | nil => rfl
  | cons a as ih =>
      by_cases hpa : p a = true
      · rw [List.find?_cons_of_pos _ hpa, List.filter_cons_of_pos hpa]
        rfl
      · rw [List.find?_cons_of_neg _ hpa, List.filter_cons_of_neg hpa, ih]

/-- C8: submitting a CFT evaluation twice for the same
(request, department) pair is an idempotent upsert.  When the first
submission leaves the threshold unreached (so the request stays pending CFT
evaluation), both calls succeed and afterwards exactly one evaluation row
exists for the pair, carrying the second submission's impact type,
decision, risk level and notes. -/
theorem C8_cft_upsert_idempotent (db : DB) (r : Request) (actor : Nat)
    (department : Department) (it1 : String) (dec1 : Decision) (rl1 nts1 : String)
    (it2 : String) (dec2 : Decision) (rl2 nts2 : String)
    (hwf : EvalTableWF db)
    (hst : r.status = Status.PendingCFTEvaluation)
    (hass : isAssignedEvaluator db r.id department.code actor = true)
    (hlt : evaluatorCount db r.id
        ≠ evaluationCount (upsertEvaluation db r actor department it1 dec1 rl1 nts1) r.id) :
    ∃ db1, cft_evaluation db r actor department it1 dec1 rl1 nts1 = (Except.ok r, db1)
      ∧ ∃ r2 db2, cft_evaluation db1 r actor department it2 dec2 rl2 nts2
          = (Except.ok r2, db2)
        ∧ ∃ e2, pairEvals db2 r.id department.code = [e2]
          ∧ e2.impact_type = it2 ∧ e2.decision = dec2 ∧ e2.risk_level = rl2
          ∧ e2.evaluation_notes = nts2 := by
  have hcond1 : ¬ (evaluatorCount (cftLoggedDB db r actor department it1 dec1 rl1 nts1) r.id
      = evaluationCount (cftLoggedDB db r actor department it1 dec1 rl1 nts1) r.id) := by
    rw [cftLoggedDB_evaluatorCount]
    exact hlt
  rw [cft_evaluation_eq db r actor department it1 dec1 rl1 nts1 hst hass, if_neg hcond1]
  refine ⟨cftLoggedDB db r actor department it1 dec1 rl1 nts1, rfl, ?_⟩
  set db1 := cftLoggedDB db r actor department it1 dec1 rl1 nts1 with hdb1
  have hwf1 : EvalTableWF db1 :=
    upsertEvaluation_WF db r actor department it1 dec1 rl1 nts1 hwf
  have hass1 : isAssignedEvaluator db1 r.id department.code actor = true := by
    unfold isAssignedEvaluator
    rw [show db1.evaluators = db.evaluators from
      cftLoggedDB_evaluators db r actor department it1 dec1 rl1 nts1]
    exact hass
  obtain ⟨e1, hpairs1, he1rid, he1dept, -, -, -, -⟩ :=
    upsertEvaluation_pair db r actor department it1 dec1 rl1 nts1 hwf
  have hfind1 : db1.evaluations.find? (fun e =>
      e.request_id == r.id && e.dept == department.code) = some e1 := by
    rw [find?_eq_head?_filter]
    show (pairEvals db1 r.id department.code).head? = some e1
    have hp1 : pairEvals db1 r.id department.code = [e1] := hpairs1
    rw [hp1]
    rfl
  have hcount1 : evaluationCount (upsertEvaluation db1 r actor department it2 dec2 rl2 nts2) r.id
      = evaluationCount db1 r.id := by
    rw [upsertEvaluation_count db1 r actor department it2 dec2 rl2 nts2 hwf1, hfind1]
  have hcond2 : ¬ (evaluatorCount (cftLoggedDB db1 r actor department it2 dec2 rl2 nts2) r.id
      = evaluationCount (cftLoggedDB db1 r actor department it2 dec2 rl2 nts2) r.id) := by
    rw [cftLoggedDB_evaluatorCount]
    intro heq2
    apply hlt
    calc evaluatorCount db r.id
        = evaluatorCount db1 r.id :=
          (cftLoggedDB_evaluatorCount db r actor department it1 dec1 rl1 nts1 r.id).symm
      _ = evaluationCount (cftLoggedDB db1 r actor department it2 dec2 rl2 nts2) r.id := heq2
      _ = evaluationCount (upsertEvaluation db1 r actor department it2 dec2 rl2 nts2) r.id := rfl
      _ = evaluationCount db1 r.id := hcount1
      _ = evaluationCount (upsertEvaluation db r actor department it1 dec1 rl1 nts1) r.id := rfl
  rw [cft_evaluation_eq db1 r actor department it2 dec2 rl2 nts2 hst hass1, if_neg hcond2]
  refine ⟨r, cftLoggedDB db1 r actor department it2 dec2 rl2 nts2, rfl, ?_⟩
  obtain ⟨e2, hpairs2, -, -, hit2, hdec2, hrl2, hnts2⟩ :=
    upsertEvaluation_pair db1 r actor department it2 dec2 rl2 nts2 hwf1
  exact ⟨e2, hpairs2, hit2, hdec2, hrl2, hnts2⟩

/-- Witness for C8: user 30 submits the QA evaluation of `wReq` twice, with
an updated payload the second time, while the PD evaluation is missing. -/
theorem C8_cft_upsert_idempotent_witness :
    EvalTableWF wDB ∧ wReq.status = Status.PendingCFTEvaluation
    ∧ isAssignedEvaluator wDB wReq.id deptQA.code 30 = true
    ∧ evaluatorCount wDB wReq.id
        ≠ evaluationCount (upsertEvaluation wDB wReq 30 deptQA "Quality"
            Decision.Pending "Low" "first") wReq.id
    ∧ (∃ db1, cft_evaluation wDB wReq 30 deptQA "Quality" Decision.Pending "Low" "first"
          = (Except.ok wReq, db1)
      ∧ ∃ r2 db2, cft_evaluation db1 wReq 30 deptQA "Regulatory" Decision.Approved "High" "second"
          = (Except.ok r2, db2)
        ∧ ∃ e2, pairEvals db2 wReq.id deptQA.code = [e2]
          ∧ e2.impact_type = "Regulatory" ∧ e2.decision = Decision.Approved
          ∧ e2.risk_level = "High" ∧ e2.evaluation_notes = "second") :=
  ⟨by decide, rfl, by decide, by decide,
    C8_cft_upsert_idempotent wDB wReq 30 deptQA "Quality" Decision.Pending "Low" "first"
      "Regulatory" Decision.Approved "High" "second" (by decide) rfl (by decide) (by decide)⟩

/-- C9: an evaluation whose decision is Pending counts toward the
evaluation-count = assignment-count threshold.  If every stored evaluation
of the request is Pending with no completion timestamp and the submitted
decision is Pending, and the upsert brings the counts to equality, then the
call still advances the request out of PendingCFTEvaluation — to
PendingDocumentUpdate for Minor impact and to PendingDocumentUpdate or
PendingRiskAssessment otherwise — while no evaluation of the request
carries a completion timestamp. -/
theorem C9_pending_counts_toward_threshold (db : DB) (r : Request) (actor : Nat)
    (department : Department) (it : String) (rl nts : String)
    (hwf : EvalTableWF db)
    (hst : r.status = Status.PendingCFTEvaluation)
    (hass : isAssignedEvaluator db r.id department.code actor = true)
    (hold : ∀ e ∈ db.evaluations, e.request_id = r.id →
        e.decision = Decision.Pending ∧ e.completed_at = none)
    (hcount : evaluatorCount db r.id
        = evaluationCount (upsertEvaluation db r actor department it Decision.Pending rl nts) r.id) :
    ∃ r1 db1, cft_evaluation db r actor department it Decision.Pending rl nts
        = (Except.ok r1, db1)
      ∧ r1.status ≠ Status.PendingCFTEvaluation
      ∧ (r.impact_level = some ImpactLevel.Minor →
          r1.status = Status.PendingDocumentUpdate)
      ∧ (r1.status = Status.PendingDocumentUpdate
         ∨ r1.status = Status.PendingRiskAssessment)
      ∧ (∀ e ∈ db1.evaluations, e.request_id = r.id → e.completed_at = none) := by
  have hallpend : ∀ e ∈ (upsertEvaluation db r actor department it Decision.Pending rl
      nts).evaluations, e.request_id = r.id →
      e.decision = Decision.Pending ∧ e.completed_at = none := by
    obtain ⟨l1, l2, e1, heq, hsub1, hsub2, -, -, -, -, -, -, -, he1dec, -, -, -, hcp, -⟩ :=
      upsertEvaluation_decomp db r actor department it Decision.Pending rl nts hwf
    have hcanone : e1.completed_at = none := by
      rw [hcp rfl]
      cases hf : db.evaluations.find? (fun q =>
          q.request_id == r.id && q.dept == department.code) with
      | none => rfl
      | some e0 =>
          have hp0 := List.find?_some hf
          rw [Bool.and_eq_true, beq_iff_eq, beq_iff_eq] at hp0
          exact (hold e0 (List.mem_of_find?_eq_some hf) hp0.1).2
    intro e he hrid2
    rw [heq] at he
    rcases List.mem_append.1 he with h | h
    · exact hold e (hsub1 e h) hrid2
    · rcases List.mem_cons.1 h with h | h
      · subst h
        exact ⟨he1dec, hcanone⟩
      · exact hold e (hsub2 e h) hrid2
  have hcond : evaluatorCount (cftLoggedDB db r actor department it Decision.Pending rl nts) r.id
      = evaluationCount (cftLoggedDB db r actor department it Decision.Pending rl nts) r.id := by
    rw [cftLoggedDB_evaluatorCount]
    exact hcount
  rw [cft_evaluation_eq db r actor department it Decision.Pending rl nts hst hass,
    if_pos hcond]
  have hrejfalse : ((cftLoggedDB db r actor department it Decision.Pending rl
      nts).evaluations.filter (fun e => e.request_id == r.id)).any
      (fun e => e.decision == Decision.Rejected) = false := by
    rw [List.any_eq_false]
    intro e he
    rw [List.mem_filter] at he
    obtain ⟨hmem, hrid2⟩ := he
    rw [beq_iff_eq] at hrid2
    have hp := (hallpend e hmem hrid2).1
    simp [hp]
  have hstat : (r.impact_level = some ImpactLevel.Minor →
        (cftNextRequest (cftLoggedDB db r actor department it Decision.Pending rl nts) r
          actor).status = Status.PendingDocumentUpdate)
      ∧ ((cftNextRequest (cftLoggedDB db r actor department it Decision.Pending rl nts) r
          actor).status = Status.PendingDocumentUpdate
         ∨ (cftNextRequest (cftLoggedDB db r actor department it Decision.Pending rl nts) r
          actor).status = Status.PendingRiskAssessment) := by
    unfold cftNextRequest
    rw [if_neg (by simp [hrejfalse])]
    by_cases hm : r.impact_level = some ImpactLevel.Minor
    · rw [if_pos hm]
      exact ⟨fun _ => rfl, Or.inl rfl⟩
    · rw [if_neg hm]
      refine ⟨fun hmm => absurd hmm hm, ?_⟩
      cases hra : findRiskAssessment (cftLoggedDB db r actor department it Decision.Pending
          rl nts) r.id with
      | none => exact Or.inr rfl
      | some ra =>
          by_cases hc : ra.status = RAStatus.Completed
          · simp [hc]
          · simp [hc]
  refine ⟨_, _, rfl, ?_, hstat.1, hstat.2, ?_⟩
  · rcases hstat.2 with h | h <;> rw [h] <;> intro hcc <;> cases hcc
  · intro e he hrid2
    exact (hallpend e he hrid2).2

/-- A database holding `wReq` with a single assigned evaluator, so one
submission reaches the completion threshold. -/
def wDB1 : DB :=
  { emptyDB with
    requests := [wReq]
    evaluators := [{ request_id := 1, dept := "QA", evaluator := 30 }]
    nextRequestId := 2 }

/-- Witness for C9: the single assigned evaluator submits a Pending
decision for the Major-impact `wReq`, and the request advances. -/
theorem C9_pending_counts_toward_threshold_witness :
    EvalTableWF wDB1 ∧ wReq.status = Status.PendingCFTEvaluation
    ∧ isAssignedEvaluator wDB1 wReq.id deptQA.code 30 = true
    ∧ (∀ e ∈ wDB1.evaluations, e.request_id = wReq.id →
        e.decision = Decision.Pending ∧ e.completed_at = none)
    ∧ evaluatorCount wDB1 wReq.id
        = evaluationCount (upsertEvaluation wDB1 wReq 30 deptQA "Quality"
            Decision.Pending "Low" "") wReq.id
    ∧ (∃ r1 db1, cft_evaluation wDB1 wReq 30 deptQA "Quality" Decision.Pending "Low" ""
          = (Except.ok r1, db1)
      ∧ r1.status ≠ Status.PendingCFTEvaluation
      ∧ (wReq.impact_level = some ImpactLevel.Minor →
          r1.status = Status.PendingDocumentUpdate)
      ∧ (r1.status = Status.PendingDocumentUpdate
         ∨ r1.status = Status.PendingRiskAssessment)
      ∧ (∀ e ∈ db1.evaluations, e.request_id = wReq.id → e.completed_at = none)) :=
  ⟨by decide, rfl, by decide, by decide, by decide,
    C9_pending_counts_toward_threshold wDB1 wReq 30 deptQA "Quality" "Low" ""
      (by decide) rfl (by decide) (by decide) (by decide)⟩

/-- The action-plan item as `complete_action_plan` persists it: status
Completed, completion timestamp, notes. -/
def completedItem (db : DB) (ap : ActionPlan) (notes : String) : ActionPlan :=
  { ap with status := APStatus.Completed, completion_date := some db.clock, notes := notes }

/-- The Pending-or-In-Progress filter of `complete_action_plan` over the
saved table. -/
def pendingActionsAfter (db : DB) (r : Request) (ap : ActionPlan) (notes : String) :
    List ActionPlan :=
  (saveActionPlan db (completedItem db ap notes)).actionPlans.filter
    (fun a => a.request_id == r.id &&
      (a.status == APStatus.Pending || a.status == APStatus.InProgress))

/-- With the responsible-person guard of `complete_action_plan` satisfied
the call reduces to the item completion and the threshold branch. -/
theorem complete_action_plan_eq (db : DB) (r : Request) (actor : Nat) (ap : ActionPlan)
    (notes : String) (hresp : ap.responsible_person = actor) :
    complete_action_plan db r actor ap notes =
      (if (pendingActionsAfter db r ap notes).isEmpty then
        (Except.ok (completedItem db ap notes),
         log_workflow_history
           (saveRequest (saveActionPlan db (completedItem db ap notes))
             { r with status := Status.PendingQAEvaluation, current_step := 8 })
           { r with status := Status.PendingQAEvaluation, current_step := 8 }
           7 "Action Plan & Implementation" actor "All action plans completed" ""
           (some r.status) (some Status.PendingQAEvaluation))
      else
        (Except.ok (completedItem db ap notes),
         saveActionPlan db (completedItem db ap notes))) := by
  unfold complete_action_plan pendingActionsAfter completedItem
  rw [if_neg (by simp [hresp])]

/-- C3 amended: `cft_evaluation` always writes exactly one history entry,
but both its previous and new status record the status before the call,
even when the threshold branch changes the status; `complete_action_plan`
writes no entry while another Pending or In-Progress item of the request
remains, and writes exactly one entry — previous status before the call,
new status PendingQAEvaluation — when it completes the last open item. -/
theorem C3_amended_history_logging (db : DB) (r : Request) (actor : Nat)
    (department : Department) (it : String) (dec : Decision) (rl nts : String)
    (ap : ActionPlan) (notes : String)
    (hst : r.status = Status.PendingCFTEvaluation)
    (hass : isAssignedEvaluator db r.id department.code actor = true)
    (hresp : ap.responsible_person = actor) :
    ((cft_evaluation db r actor department it dec rl nts).2.history
        = db.history ++
          [{ request_id := r.id, step := 4, step_name := "CFT Evaluation", actor := actor,
             action := "CFT evaluation completed for " ++ department.code,
             comments := "Decision: " ++ dec.asString ++ ", Risk: " ++ rl,
             previous_status := r.status, new_status := r.status }])
    ∧ ((∃ a2 ∈ db.actionPlans, a2.request_id = r.id ∧ a2.id ≠ ap.id
          ∧ (a2.status = APStatus.Pending ∨ a2.status = APStatus.InProgress)) →
        (complete_action_plan db r actor ap notes).2.history = db.history)
    ∧ ((∀ a2 ∈ db.actionPlans, a2.request_id = r.id →
          (a2.status = APStatus.Pending ∨ a2.status = APStatus.InProgress) →
          a2.id = ap.id) →
        (complete_action_plan db r actor ap notes).2.history
          = db.history ++
            [{ request_id := r.id, step := 7, step_name := "Action Plan & Implementation",
               actor := actor, action := "All action plans completed", comments := "",
               previous_status := r.status, new_status := Status.PendingQAEvaluation }]) := by
  refine ⟨?_, ?_, ?_⟩
  · rw [cft_evaluation_eq db r actor department it dec rl nts hst hass]
    by_cases hc : evaluatorCount (cftLoggedDB db r actor department it dec rl nts) r.id
        = evaluationCount (cftLoggedDB db r actor department it dec rl nts) r.id
    · rw [if_pos hc]
      show (upsertEvaluation db r actor department it dec rl nts).history ++ _ = _
      rw [(upsertEvaluation_untouched db r actor department it dec rl nts).2.2.2.1]
      rfl
    · rw [if_neg hc]
      show (upsertEvaluation db r actor department it dec rl nts).history ++ _ = _
      rw [(upsertEvaluation_untouched db r actor department it dec rl nts).2.2.2.1]
      rfl
  · intro hex
    obtain ⟨a2, hmem, harid, haid, hstat2⟩ := hex
    rw [complete_action_plan_eq db r actor ap notes hresp]
    have hmem2 : a2 ∈ pendingActionsAfter db r ap notes := by
      unfold pendingActionsAfter
      rw [List.mem_filter]
      constructor
      · show a2 ∈ db.actionPlans.map _
        have hfix : (fun q => if q.id = (completedItem db ap notes).id
            then completedItem db ap notes else q) a2 = a2 := by
          have : ¬ a2.id = (completedItem db ap notes).id := haid
          simp only [if_neg this]
        rw [← hfix]
        exact List.mem_map_of_mem _ hmem
      · rcases hstat2 with h | h <;> simp [harid, h]
    have hnonempty : (pendingActionsAfter db r ap notes).isEmpty = false := by
      simp only [List.isEmpty_eq_false]
      exact List.ne_nil_of_mem hmem2
    rw [if_neg (by simp [hnonempty])]
    rfl
  · intro hall
    rw [complete_action_plan_eq db r actor ap notes hresp]
    have hnil : pendingActionsAfter db r ap notes = [] := by
      unfold pendingActionsAfter
      refine List.filter_eq_nil_iff.2 ?_
      intro q hq
      obtain ⟨z, hz, hzq⟩ := List.mem_map.1 hq
      by_cases hzid : z.id = (completedItem db ap notes).id
      · rw [if_pos hzid] at hzq
        subst hzq
        simp [completedItem]
      · rw [if_neg hzid] at hzq
        subst hzq
        intro hpq
        rw [Bool.and_eq_true, beq_iff_eq, Bool.or_eq_true, beq_iff_eq, beq_iff_eq] at hpq
        exact hzid (hall z hz hpq.1 hpq.2)
    rw [if_pos (by rw [hnil]; rfl)]
    rfl

/-- Counterexample to C3 as stated: with one assigned evaluator, the
submission that reaches the threshold moves the stored request to
PendingRiskAssessment, yet the single history entry written by the call
records PendingCFTEvaluation as both previous and new status — its
new_status is not the status after the call, and the entry has
previous_status = new_status although the call changed the status. -/
theorem C3_counterexample_cft_entry_stale_new_status :
    ((cft_evaluation wDB1 wReq 30 deptQA "Quality" Decision.Approved "Low" "").2.history.map
        (fun h => (h.previous_status, h.new_status))
      = [(Status.PendingCFTEvaluation, Status.PendingCFTEvaluation)])
    ∧ (getRequest (cft_evaluation wDB1 wReq 30 deptQA "Quality" Decision.Approved
        "Low" "").2 wReq.id).map Request.status = some Status.PendingRiskAssessment := by
  decide

/-- A Pending action-plan item of `wReq` whose responsible person is also
evaluator 30. -/
def wAP1 : ActionPlan :=
  { id := 1, request_id := 1, description := "a1", responsible_person := 30,
    expected_timeline := 5, status := APStatus.Pending, completion_date := none,
    notes := "" }

/-- A second Pending action-plan item of `wReq`. -/
def wAP2 : ActionPlan :=
  { id := 2, request_id := 1, description := "a2", responsible_person := 41,
    expected_timeline := 6, status := APStatus.Pending, completion_date := none,
    notes := "" }

/-- `wDB1` with the two open action-plan items attached. -/
def wDBap : DB := { wDB1 with actionPlans := [wAP1, wAP2], nextActionId := 3 }

/-- Witness for the amended C3 at a concrete input. -/
theorem C3_amended_history_logging_witness :
    wReq.status = Status.PendingCFTEvaluation
    ∧ isAssignedEvaluator wDBap wReq.id deptQA.code 30 = true
    ∧ wAP1.responsible_person = 30
    ∧ (((cft_evaluation wDBap wReq 30 deptQA "Quality" Decision.Approved "Low" "").2.history
        = wDBap.history ++
          [{ request_id := wReq.id, step := 4, step_name := "CFT Evaluation", actor := 30,
             action := "CFT evaluation completed for " ++ deptQA.code,
             comments := "Decision: " ++ Decision.Approved.asString ++ ", Risk: " ++ "Low",
             previous_status := wReq.status, new_status := wReq.status }])
    ∧ ((∃ a2 ∈ wDBap.actionPlans, a2.request_id = wReq.id ∧ a2.id ≠ wAP1.id
          ∧ (a2.status = APStatus.Pending ∨ a2.status = APStatus.InProgress)) →
        (complete_action_plan wDBap wReq 30 wAP1 "").2.history = wDBap.history)
    ∧ ((∀ a2 ∈ wDBap.actionPlans, a2.request_id = wReq.id →
          (a2.status = APStatus.Pending ∨ a2.status = APStatus.InProgress) →
          a2.id = wAP1.id) →
        (complete_action_plan wDBap wReq 30 wAP1 "").2.history
          = wDBap.history ++
            [{ request_id := wReq.id, step := 7, step_name := "Action Plan & Implementation",
               actor := 30, action := "All action plans completed", comments := "",
               previous_status := wReq.status, new_status := Status.PendingQAEvaluation }])) :=
  ⟨rfl, by decide, rfl,
    C3_amended_history_logging wDBap wReq 30 deptQA "Quality" Decision.Approved "Low" ""
      wAP1 "" rfl (by decide) rfl⟩

/-! ### A reachable trace: initiate, approve, register Major, reject in
CFT, then complete the risk assessment of the now-Rejected request. -/

/-- State after `initiate_request` (user 1, department QA). -/
def c5db1 : DB := (initiate_request emptyDB 1 (some deptQA) "t" "d").2

/-- The stored request after initiation. -/
def c5r1 : Request := (getRequest c5db1 1).getD wReq

/-- State after the department head (user 10) approves. -/
def c5db2 : DB := (dept_head_decision c5db1 c5r1 10 true "").2

/-- The stored request after department-head approval. -/
def c5r2 : Request := (getRequest c5db2 1).getD wReq

/-- State after QA (user 20) registers the request as Major impact with a
single PD evaluator (user 30). -/
def c5db3 : DB := (qa_registration c5db2 c5r2 20 none "Major" [(some "PD", some 30)] 99).2

/-- The stored request after QA registration. -/
def c5r3 : Request := (getRequest c5db3 1).getD wReq

/-- State after evaluator 30 submits the single CFT evaluation with
decision Rejected. -/
def c5db4 : DB := (cft_evaluation c5db3 c5r3 30 deptPD "Quality" Decision.Rejected "High" "").2

/-- The stored request after the rejecting CFT evaluation. -/
def c5r4 : Request := (getRequest c5db4 1).getD wReq

/-- State after the risk-assessment assignee (user 20) completes the risk
assessment of the already Rejected request. -/
def c5db5 : DB := (complete_risk_assessment c5db4 c5r4 20 "f" "rc").2

/-- Counterexample to C5 as stated: along a sequence of workflow
operations from the empty store, the request is Rejected during CFT
evaluation with all three rejection fields populated, and the subsequent
`complete_risk_assessment` call — which never checks the status — succeeds
and moves the request to PendingDocumentUpdate while the rejection fields
stay populated, breaking the claimed biconditional. -/
theorem C5_counterexample_rejected_request_moved_on :
    (getRequest c5db1 1).map Request.status = some Status.PendingDeptHead
    ∧ (getRequest c5db2 1).map Request.status = some Status.PendingQARegistration
    ∧ (getRequest c5db3 1).map Request.status = some Status.PendingCFTEvaluation
    ∧ (getRequest c5db4 1).map (fun q =>
        (q.status, q.rejection_reason, q.rejected_by, q.rejected_at))
      = some (Status.Rejected, "Rejected during CFT evaluation", some 30, some 0)
    ∧ (complete_risk_assessment c5db4 c5r4 20 "f" "rc").1
      = Except.ok { request_id := 1, assigned_to := 20, status := RAStatus.Completed,
                    findings := "f", recommendations := "rc", completion_date := some 0 }
    ∧ (getRequest c5db5 1).map (fun q =>
        (q.status, q.rejection_reason, q.rejected_by, q.rejected_at))
      = some (Status.PendingDocumentUpdate, "Rejected during CFT evaluation", some 30, some 0) := by
  decide

/-- The two requests agree on all three rejection fields. -/
def rejSame (q r : Request) : Prop :=
  q.rejection_reason = r.rejection_reason ∧ q.rejected_by = r.rejected_by
    ∧ q.rejected_at = r.rejected_at

/-- All three rejection fields are populated. -/
def rejPopulated (q : Request) : Prop :=
  q.rejection_reason ≠ "" ∧ q.rejected_by.isSome = true ∧ q.rejected_at.isSome = true

theorem saveRequest_mem (db : DB) (r1 q : Request)
    (hq : q ∈ (saveRequest db r1).requests) : q ∈ db.requests ∨ q = r1 := by
  obtain ⟨z, hz, hzq⟩ := List.mem_map.1 hq
  by_cases h : z.id = r1.id
  · rw [if_pos h] at hzq
    exact Or.inr hzq.symm
  · rw [if_neg h] at hzq
    exact Or.inl (hzq ▸ hz)

theorem saveRequest_mem_id (db : DB) (r1 q : Request)
    (hq : q ∈ (saveRequest db r1).requests) (hid : q.id = r1.id) : q = r1 := by
  obtain ⟨z, hz, hzq⟩ := List.mem_map.1 hq
  by_cases h : z.id = r1.id
  · rw [if_pos h] at hzq
    exact hzq.symm
  · rw [if_neg h] at hzq
    subst hzq
    exact absurd hid h

/-- The evaluator get-or-create loop of `qa_registration` never touches the
request table. -/
theorem evalFold_requests (rid : Nat) (l : List (Option String × Option Nat)) (db : DB) :
    (l.foldl (fun db ed =>
      match ed.1, ed.2 with
      | some dept, some evaluator =>
          if db.evaluators.any (fun a =>
              a.request_id == rid && a.dept == dept && a.evaluator == evaluator)
          then db
          else { db with evaluators := db.evaluators ++
                  [{ request_id := rid, dept := dept, evaluator := evaluator }] }
      | _, _ => db) db).requests = db.requests := by
  induction l generalizing db with
  | nil => rfl
  | cons x xs ih =>
      rw [List.foldl_cons, ih]
      rcases x with ⟨d, ev⟩
      cases d <;> cases ev <;> try rfl
      dsimp only
      split <;> rfl

/-- The document-revision get-or-create loop of `document_management` never
touches the request table. -/
theorem docFold_requests (rid : Nat) (l : List (String × String × String)) (db : DB) :
    (l.foldl (fun db doc =>
      if db.documentRevisions.any (fun d =>
          d.request_id == rid && d.document_name == doc.1 &&
          d.document_code == doc.2.1 && d.assigned_department == doc.2.2)
      then db
      else { db with
        documentRevisions := db.documentRevisions ++
          [{ id := db.nextDocRevId, request_id := rid, document_name := doc.1,
             document_code := doc.2.1, assigned_department := doc.2.2,
             status := DRStatus.Pending, revision_notes := "",
             revision_date := none, revised_by := none }]
        nextDocRevId := db.nextDocRevId + 1 }) db).requests = db.requests := by
  induction l generalizing db with
  | nil => rfl
  | cons x xs ih =>
      rw [List.foldl_cons, ih]
      split <;> rfl

/-- The action-plan creation loop of `action_plan_management` never touches
the request table. -/
theorem actionFold_requests (rid : Nat) (l : List (String × Nat × Nat)) (db : DB) :
    (l.foldl (fun db a =>
      { db with
        actionPlans := db.actionPlans ++
          [{ id := db.nextActionId, request_id := rid, description := a.1,
             responsible_person := a.2.1, expected_timeline := a.2.2,
             status := APStatus.Pending, completion_date := none, notes := "" }]
        nextActionId := db.nextActionId + 1 }) db).requests = db.requests := by
  induction l generalizing db with
  | nil => rfl
  | cons x xs ih =>
      rw [List.foldl_cons, ih]

theorem rejKeep_route (db : DB) (r : Request) (actor : Nat) :
    ∀ q ∈ (route_to_dept_head db r actor).2.requests,
      q ∈ db.requests ∨ rejSame q r ∨ (q.status = Status.Rejected ∧ rejPopulated q) := by
  intro q hq
  unfold route_to_dept_head at hq
  split at hq
  · exact Or.inl hq
  · split at hq
    · exact Or.inl hq
    · rcases saveRequest_mem _ _ q hq with h | h
      · exact Or.inl h
      · exact Or.inr (Or.inl (by rw [h]; exact ⟨rfl, rfl, rfl⟩))

theorem rejKeep_dept_head (db : DB) (r : Request) (actor : Nat) (approved : Bool)
    (reason : String) :
    ∀ q ∈ (dept_head_decision db r actor approved reason).2.requests,
      q ∈ db.requests ∨ rejSame q r ∨ (q.status = Status.Rejected ∧ rejPopulated q) := by
  intro q hq
  unfold dept_head_decision at hq
  split at hq
  · exact Or.inl hq
  · split at hq
    · exact Or.inl hq
    · split at hq
      · rcases saveRequest_mem _ _ q hq with h | h
        · exact Or.inl h
        · exact Or.inr (Or.inl (by rw [h]; exact ⟨rfl, rfl, rfl⟩))
      · rcases saveRequest_mem _ _ q hq with h | h
        · exact Or.inl h
        · refine Or.inr (Or.inr ?_)
          rw [h]
          refine ⟨rfl, ?_, rfl, rfl⟩
          show (if reason = "" then "Rejected by department head" else reason) ≠ ""
          by_cases hres : reason = ""
          · rw [if_pos hres]
            simp
          · rw [if_neg hres]
            exact hres

theorem rejKeep_create_ra (db : DB) (r : Request) (actor : Nat) (assigned : Option Nat) :
    ∀ q ∈ (create_risk_assessment db r actor assigned).2.requests,
      q ∈ db.requests ∨ rejSame q r ∨ (q.status = Status.Rejected ∧ rejPopulated q) := by
  intro q hq
  unfold create_risk_assessment at hq
  split at hq
  · exact Or.inl hq
  · dsimp only at hq
    repeat' split at hq
    all_goals
      first
      | exact Or.inl hq
      | exact (saveRequest_mem _ _ q hq).elim Or.inl
          (fun h => Or.inr (Or.inl (by rw [h]; exact ⟨rfl, rfl, rfl⟩)))

theorem rejKeep_qa_registration (db : DB) (r : Request) (actor : Nat)
    (fccArg : Option String) (impact : String)
    (evs : List (Option String × Option Nat)) (target : Nat) :
    ∀ q ∈ (qa_registration db r actor fccArg impact evs target).2.requests,
      q ∈ db.requests ∨ rejSame q r ∨ (q.status = Status.Rejected ∧ rejPopulated q) := by
  intro q hq
  unfold qa_registration at hq
  split at hq
  · exact Or.inl hq
  · split at hq
    · exact Or.inl hq
    · dsimp only at hq
      repeat' split at hq
      all_goals
        first
        | exact Or.inl hq
        | exact (saveRequest_mem _ _ q (by
            dsimp only [log_workflow_history] at hq
            rw [evalFold_requests] at hq
            exact hq)).elim Or.inl
            (fun h => Or.inr (Or.inl (by rw [h]; exact ⟨rfl, rfl, rfl⟩)))
        | exact (rejKeep_create_ra _ _ actor none q hq).elim
            (fun h => (saveRequest_mem _ _ q (by
                dsimp only [log_workflow_history] at h
                rw [evalFold_requests] at h
                exact h)).elim Or.inl
              (fun h2 => Or.inr (Or.inl (by rw [h2]; exact ⟨rfl, rfl, rfl⟩))))
            (fun h => h.elim (fun h1 => Or.inr (Or.inl h1)) (fun h1 => Or.inr (Or.inr h1)))

theorem rejKeep_cft (db : DB) (r : Request) (actor : Nat) (department : Department)
    (it : String) (dec : Decision) (rl nts : String) :
    ∀ q ∈ (cft_evaluation db r actor department it dec rl nts).2.requests,
      q ∈ db.requests ∨ rejSame q r ∨ (q.status = Status.Rejected ∧ rejPopulated q) := by
  intro q hq
  unfold cft_evaluation at hq
  split at hq
  · exact Or.inl hq
  · split at hq
    · exact Or.inl hq
    · dsimp only at hq
      split at hq
      · rcases saveRequest_mem _ _ q hq with h | h
        · have h2 : q ∈ (upsertEvaluation db r actor department it dec rl nts).requests := h
          rw [(upsertEvaluation_untouched db r actor department it dec rl nts).1] at h2
          exact Or.inl h2
        · rw [h]
          unfold cftNextRequest
          split
          · exact Or.inr (Or.inr ⟨rfl, by simp, rfl, rfl⟩)
          · split
            · exact Or.inr (Or.inl ⟨rfl, rfl, rfl⟩)
            · split
              · split
                · exact Or.inr (Or.inl ⟨rfl, rfl, rfl⟩)
                · exact Or.inr (Or.inl ⟨rfl, rfl, rfl⟩)
              · exact Or.inr (Or.inl ⟨rfl, rfl, rfl⟩)
      · have h2 : q ∈ (upsertEvaluation db r actor department it dec rl nts).requests := hq
        rw [(upsertEvaluation_untouched db r actor department it dec rl nts).1] at h2
        exact Or.inl h2

theorem rejKeep_complete_ra (db : DB) (r : Request) (actor : Nat) (f rec : String) :
    ∀ q ∈ (complete_risk_assessment db r actor f rec).2.requests,
      q ∈ db.requests ∨ rejSame q r ∨ (q.status = Status.Rejected ∧ rejPopulated q) := by
  intro q hq
  unfold complete_risk_assessment at hq
  split at hq
  · exact Or.inl hq
  · split at hq
    · exact Or.inl hq
    · rcases saveRequest_mem _ _ q hq with h | h
      · exact Or.inl h
      · exact Or.inr (Or.inl (by rw [h]; exact ⟨rfl, rfl, rfl⟩))

theorem rejKeep_document_management (db : DB) (r : Request) (actor : Nat)
    (docs : List (String × String × String)) :
    ∀ q ∈ (document_management db r actor docs).2.requests,
      q ∈ db.requests ∨ rejSame q r ∨ (q.status = Status.Rejected ∧ rejPopulated q) := by
  intro q hq
  unfold document_management at hq
  split at hq
  · exact Or.inl hq
  · split at hq
    · rcases saveRequest_mem _ _ q hq with h | h
      · rw [docFold_requests] at h
        exact Or.inl h
      · exact Or.inr (Or.inl (by rw [h]; exact ⟨rfl, rfl, rfl⟩))
    · have h2 : q ∈ (docs.foldl _ db).requests := hq
      rw [docFold_requests] at h2
      exact Or.inl h2

theorem rejKeep_complete_doc_revision (db : DB) (r : Request) (actor : Nat)
    (dr : DocumentRevision) (notes : String) :
    ∀ q ∈ (complete_document_revision db r actor dr notes).2.requests,
      q ∈ db.requests ∨ rejSame q r ∨ (q.status = Status.Rejected ∧ rejPopulated q) := by
  intro q hq
  unfold complete_document_revision at hq
  dsimp only at hq
  repeat' split at hq
  all_goals
    first
    | exact Or.inl hq
    | exact (saveRequest_mem _ _ q hq).elim Or.inl
        (fun h => Or.inr (Or.inl (by rw [h]; exact ⟨rfl, rfl, rfl⟩)))

theorem rejKeep_action_plan_management (db : DB) (r : Request) (actor : Nat)
    (acts : List (String × Nat × Nat)) :
    ∀ q ∈ (action_plan_management db r actor acts).2.requests,
      q ∈ db.requests ∨ rejSame q r ∨ (q.status = Status.Rejected ∧ rejPopulated q) := by
  intro q hq
  unfold action_plan_management at hq
  split at hq
  · exact Or.inl hq
  · rcases saveRequest_mem _ _ q hq with h | h
    · rw [actionFold_requests] at h
      exact Or.inl h
    · exact Or.inr (Or.inl (by rw [h]; exact ⟨rfl, rfl, rfl⟩))

theorem rejKeep_complete_action_plan (db : DB) (r : Request) (actor : Nat)
    (ap : ActionPlan) (notes : String) :
    ∀ q ∈ (complete_action_plan db r actor ap notes).2.requests,
      q ∈ db.requests ∨ rejSame q r ∨ (q.status = Status.Rejected ∧ rejPopulated q) := by
  intro q hq
  unfold complete_action_plan at hq
  split at hq
  · exact Or.inl hq
  · dsimp only at hq
    split at hq
    · rcases saveRequest_mem _ _ q hq with h | h
      · exact Or.inl h
      · exact Or.inr (Or.inl (by rw [h]; exact ⟨rfl, rfl, rfl⟩))
    · exact Or.inl hq

theorem rejKeep_qa_final (db : DB) (r : Request) (actor : Nat) (b1 b2 b3 b4 : Bool)
    (com : String) :
    ∀ q ∈ (qa_final_evaluation db r actor b1 b2 b3 b4 com).2.requests,
      q ∈ db.requests ∨ rejSame q r ∨ (q.status = Status.Rejected ∧ rejPopulated q) := by
  intro q hq
  unfold qa_final_evaluation at hq
  split at hq
  · exact Or.inl hq
  · split at hq
    · exact Or.inl hq
    · split at hq
      · exact Or.inl hq
      · split at hq
        · split at hq
          · exact Or.inl hq
          · split at hq
            · exact Or.inl hq
            · split at hq
              · exact Or.inl hq
              · rcases saveRequest_mem _ _ q hq with h | h
                · exact Or.inl h
                · exact Or.inr (Or.inl (by rw [h]; exact ⟨rfl, rfl, rfl⟩))
        · rcases saveRequest_mem _ _ q hq with h | h
          · exact Or.inl h
          · exact Or.inr (Or.inl (by rw [h]; exact ⟨rfl, rfl, rfl⟩))

theorem rejKeep_qa_head (db : DB) (r : Request) (actor : Nat) (approvedFlag : Bool)
    (reason : String) :
    ∀ q ∈ (qa_head_approval db r actor approvedFlag reason).2.requests,
      q ∈ db.requests ∨ rejSame q r ∨ (q.status = Status.Rejected ∧ rejPopulated q) := by
  intro q hq
  unfold qa_head_approval at hq
  split at hq
  · exact Or.inl hq
  · split at hq
    · rcases saveRequest_mem _ _ q hq with h | h
      · exact Or.inl h
      · exact Or.inr (Or.inl (by rw [h]; exact ⟨rfl, rfl, rfl⟩))
    · rcases saveRequest_mem _ _ q hq with h | h
      · exact Or.inl h
      · exact Or.inr (Or.inl (by rw [h]; exact ⟨rfl, rfl, rfl⟩))

theorem rejKeep_qa_closure (db : DB) (r : Request) (actor : Nat) :
    ∀ q ∈ (qa_closure db r actor).2.requests,
      q ∈ db.requests ∨ rejSame q r ∨ (q.status = Status.Rejected ∧ rejPopulated q) := by
  intro q hq
  unfold qa_closure at hq
  split at hq
  · exact Or.inl hq
  · exact Or.inl hq

theorem rejKeep_verification (db : DB) (r : Request) (actor : Nat) (b1 b2 b3 : Bool)
    (com : String) :
    ∀ q ∈ (post_implementation_verification db r actor b1 b2 b3 com).2.requests,
      q ∈ db.requests ∨ rejSame q r ∨ (q.status = Status.Rejected ∧ rejPopulated q) := by
  intro q hq
  unfold post_implementation_verification at hq
  split at hq
  · exact Or.inl hq
  · split at hq
    · exact Or.inl hq
    · dsimp only at hq
      split at hq
      all_goals
        exact (rejKeep_qa_closure _ _ actor q hq).elim
          (fun h => (saveRequest_mem _ _ q h).elim Or.inl
            (fun h2 => Or.inr (Or.inl (by rw [h2]; exact ⟨rfl, rfl, rfl⟩))))
          (fun h => h.elim (fun h1 => Or.inr (Or.inl h1)) (fun h1 => Or.inr (Or.inr h1)))

/-- C5 amended: every operation that sets status Rejected populates all
three rejection fields (department-head rejection and the CFT threshold
rejection); no workflow operation writes a rejection field into the store
without also setting status Rejected — after any call, every stored
request row is an untouched old row, or carries the rejection fields of
the passed request unchanged, or is Rejected with all three fields
populated.  The biconditional with the current status fails, though:
`complete_risk_assessment` has no status guard, so it moves any request —
a Rejected one included — to PendingDocumentUpdate while preserving its
populated rejection fields. -/
theorem C5_amended_rejection_discipline (db : DB) (r : Request) (actor : Nat)
    (department : Department) (reason it rl nts f rec com notes : String)
    (dec : Decision) (fccArg : Option String) (impact : String)
    (evs : List (Option String × Option Nat)) (target : Nat)
    (docs : List (String × String × String)) (dr : DocumentRevision)
    (acts : List (String × Nat × Nat)) (ap : ActionPlan) (assigned : Option Nat)
    (b1 b2 b3 b4 approvedFlag : Bool) :
    (r.status = Status.PendingDeptHead → r.department.head = some actor →
      ∃ r1 db1, dept_head_decision db r actor false reason = (Except.ok r1, db1)
        ∧ r1.status = Status.Rejected ∧ rejPopulated r1)
    ∧ (EvalTableWF db → r.status = Status.PendingCFTEvaluation →
        isAssignedEvaluator db r.id department.code actor = true →
        evaluatorCount db r.id = evaluationCount
          (upsertEvaluation db r actor department it Decision.Rejected rl nts) r.id →
        ∃ r1 db1, cft_evaluation db r actor department it Decision.Rejected rl nts
            = (Except.ok r1, db1)
          ∧ r1.status = Status.Rejected ∧ rejPopulated r1 ∧ r1.rejected_by = some actor)
    ∧ (∀ ra, findRiskAssessment db r.id = some ra → ra.assigned_to = actor →
        ∃ ra1 db1, complete_risk_assessment db r actor f rec = (Except.ok ra1, db1)
          ∧ ∀ q ∈ db1.requests, q.id = r.id →
              q.status = Status.PendingDocumentUpdate ∧ rejSame q r)
    ∧ (∀ q ∈ (route_to_dept_head db r actor).2.requests,
        q ∈ db.requests ∨ rejSame q r ∨ (q.status = Status.Rejected ∧ rejPopulated q))
    ∧ (∀ q ∈ (dept_head_decision db r actor approvedFlag reason).2.requests,
        q ∈ db.requests ∨ rejSame q r ∨ (q.status = Status.Rejected ∧ rejPopulated q))
    ∧ (∀ q ∈ (create_risk_assessment db r actor assigned).2.requests,
        q ∈ db.requests ∨ rejSame q r ∨ (q.status = Status.Rejected ∧ rejPopulated q))
    ∧ (∀ q ∈ (qa_registration db r actor fccArg impact evs target).2.requests,
        q ∈ db.requests ∨ rejSame q r ∨ (q.status = Status.Rejected ∧ rejPopulated q))
    ∧ (∀ q ∈ (cft_evaluation db r actor department it dec rl nts).2.requests,
        q ∈ db.requests ∨ rejSame q r ∨ (q.status = Status.Rejected ∧ rejPopulated q))
    ∧ (∀ q ∈ (complete_risk_assessment db r actor f rec).2.requests,
        q ∈ db.requests ∨ rejSame q r ∨ (q.status = Status.Rejected ∧ rejPopulated q))
    ∧ (∀ q ∈ (document_management db r actor docs).2.requests,
        q ∈ db.requests ∨ rejSame q r ∨ (q.status = Status.Rejected ∧ rejPopulated q))
    ∧ (∀ q ∈ (complete_document_revision db r actor dr notes).2.requests,
        q ∈ db.requests ∨ rejSame q r ∨ (q.status = Status.Rejected ∧ rejPopulated q))
    ∧ (∀ q ∈ (action_plan_management db r actor acts).2.requests,
        q ∈ db.requests ∨ rejSame q r ∨ (q.status = Status.Rejected ∧ rejPopulated q))
    ∧ (∀ q ∈ (complete_action_plan db r actor ap notes).2.requests,
        q ∈ db.requests ∨ rejSame q r ∨ (q.status = Status.Rejected ∧ rejPopulated q))
    ∧ (∀ q ∈ (qa_final_evaluation db r actor b1 b2 b3 b4 com).2.requests,
        q ∈ db.requests ∨ rejSame q r ∨ (q.status = Status.Rejected ∧ rejPopulated q))
    ∧ (∀ q ∈ (qa_head_approval db r actor approvedFlag reason).2.requests,
        q ∈ db.requests ∨ rejSame q r ∨ (q.status = Status.Rejected ∧ rejPopulated q))
    ∧ (∀ q ∈ (qa_closure db r actor).2.requests,
        q ∈ db.requests ∨ rejSame q r ∨ (q.status = Status.Rejected ∧ rejPopulated q))
    ∧ (∀ q ∈ (post_implementation_verification db r actor b1 b2 b3 com).2.requests,
        q ∈ db.requests ∨ rejSame q r ∨ (q.status = Status.Rejected ∧ rejPopulated q)) := by
  refine ⟨?_, ?_, ?_, rejKeep_route db r actor,
    rejKeep_dept_head db r actor approvedFlag reason,
    rejKeep_create_ra db r actor assigned,
    rejKeep_qa_registration db r actor fccArg impact evs target,
    rejKeep_cft db r actor department it dec rl nts,
    rejKeep_complete_ra db r actor f rec,
    rejKeep_document_management db r actor docs,
    rejKeep_complete_doc_revision db r actor dr notes,
    rejKeep_action_plan_management db r actor acts,
    rejKeep_complete_action_plan db r actor ap notes,
    rejKeep_qa_final db r actor b1 b2 b3 b4 com,
    rejKeep_qa_head db r actor approvedFlag reason,
    rejKeep_qa_closure db r actor,
    rejKeep_verification db r actor b1 b2 b3 com⟩
  · intro hst hhead
    unfold dept_head_decision
    rw [if_neg (by simp [hst]), if_neg (by simp [hhead])]
    refine ⟨_, _, rfl, rfl, ?_⟩
    refine ⟨?_, rfl, rfl⟩
    show (if reason = "" then "Rejected by department head" else reason) ≠ ""
    by_cases hres : reason = ""
    · rw [if_pos hres]
      simp
    · rw [if_neg hres]
      exact hres
  · intro hwf hst hass hcount
    have hcond : evaluatorCount
          (cftLoggedDB db r actor department it Decision.Rejected rl nts) r.id
        = evaluationCount
          (cftLoggedDB db r actor department it Decision.Rejected rl nts) r.id := by
      rw [cftLoggedDB_evaluatorCount]
      exact hcount
    rw [cft_evaluation_eq db r actor department it Decision.Rejected rl nts hst hass,
      if_pos hcond]
    obtain ⟨e1, hpair, hrid, hdept, hit, hdec, hrl2, hnts2⟩ :=
      upsertEvaluation_pair db r actor department it Decision.Rejected rl nts hwf
    have hmem : e1 ∈ (cftLoggedDB db r actor department it Decision.Rejected
        rl nts).evaluations := by
      have h1 : e1 ∈ pairEvals (upsertEvaluation db r actor department it Decision.Rejected
          rl nts) r.id department.code := by
        rw [hpair]
        exact List.mem_singleton.2 rfl
      exact List.mem_of_mem_filter h1
    have hany : ((cftLoggedDB db r actor department it Decision.Rejected
        rl nts).evaluations.filter (fun e => e.request_id == r.id)).any
        (fun e => e.decision == Decision.Rejected) = true := by
      simp only [List.any_eq_true, List.mem_filter, beq_iff_eq]
      exact ⟨e1, ⟨hmem, hrid⟩, hdec⟩
    refine ⟨_, _, rfl, ?_, ?_, ?_⟩
    · unfold cftNextRequest
      rw [if_pos hany]
    · unfold cftNextRequest
      rw [if_pos hany]
      exact ⟨by simp, rfl, rfl⟩
    · unfold cftNextRequest
      rw [if_pos hany]
  · intro ra hra hasg
    unfold complete_risk_assessment
    simp only [hra]
    rw [if_neg (by simp [hasg])]
    refine ⟨_, _, rfl, ?_⟩
    intro q hq hid
    have hq1 : q = { r with status := Status.PendingDocumentUpdate, current_step := 6 } :=
      saveRequest_mem_id _ _ q hq hid
    rw [hq1]
    exact ⟨rfl, rfl, rfl, rfl⟩

/-- The risk assessment present in `c5db4`. -/
def c5ra : RiskAssessment :=
  { request_id := 1, assigned_to := 20, status := RAStatus.Pending, findings := "",
    recommendations := "", completion_date := none }

/-- A dummy document revision used to instantiate theorem arguments. -/
def wDR : DocumentRevision :=
  { id := 1, request_id := 1, document_name := "SOP-1", document_code := "",
    assigned_department := "QA", status := DRStatus.Pending, revision_notes := "",
    revision_date := none, revised_by := none }

/-- Witness for the amended C5: in the reachable state `c5db4` — where the
request is Rejected with populated rejection fields — the assignee
completes the risk assessment; the call succeeds and leaves the rejection
fields populated while the status becomes PendingDocumentUpdate. -/
theorem C5_amended_rejection_discipline_witness :
    findRiskAssessment c5db4 c5r4.id = some c5ra ∧ c5ra.assigned_to = 20
    ∧ (∃ ra1 db1, complete_risk_assessment c5db4 c5r4 20 "f" "rc" = (Except.ok ra1, db1)
        ∧ ∀ q ∈ db1.requests, q.id = c5r4.id →
            q.status = Status.PendingDocumentUpdate ∧ rejSame q c5r4) :=
  ⟨by decide, by decide,
    (C5_amended_rejection_discipline c5db4 c5r4 20 deptPD "" "" "" "" "f" "rc" "" ""
      Decision.Approved none "" [] 0 [] wDR [] wAP1 none false false false false
      false).2.2.1 c5ra (by decide) (by decide)⟩

/-- `wDB1` with a Pending risk assessment assigned to user 20 attached to
the request. -/
def wDBra : DB :=
  { wDB1 with
    riskAssessments := [{ request_id := 1, assigned_to := 20, status := RAStatus.Pending,
                          findings := "", recommendations := "", completion_date := none }] }

/-- Counterexample to C2 as stated: `wReq` is pending CFT evaluation — not
PendingRiskAssessment and not PendingActionPlan — yet
`complete_risk_assessment` succeeds (and even moves the status to
PendingDocumentUpdate), and `complete_action_plan` succeeds as well;
neither raises the claimed InvalidStateError. -/
theorem C2_counterexample_no_status_guard :
    wReq.status ≠ Status.PendingRiskAssessment
    ∧ wReq.status ≠ Status.PendingActionPlan
    ∧ (complete_risk_assessment wDBra wReq 20 "f" "r").1
      = Except.ok { request_id := 1, assigned_to := 20, status := RAStatus.Completed,
                    findings := "f", recommendations := "r", completion_date := some 0 }
    ∧ (getRequest (complete_risk_assessment wDBra wReq 20 "f" "r").2 1).map Request.status
      = some Status.PendingDocumentUpdate
    ∧ (complete_action_plan wDBap wReq 30 wAP1 "").1
      = Except.ok { wAP1 with
          status := APStatus.Completed
          completion_date := some 0
          notes := "" } := by
  decide

/-- C2 amended: the ten operations that carry a status guard fail with a
ValidationError and leave the database untouched whenever the request is
not in their required status; but `complete_risk_assessment`,
`complete_action_plan` and `complete_document_revision` have no status
guard at all and succeed from any status once their record-level checks
pass. -/
theorem C2_amended_status_guards (db : DB) (r : Request) (actor : Nat)
    (department : Department) (reason it rl nts f rec com notes : String)
    (dec : Decision) (fccArg : Option String) (impact : String)
    (evs : List (Option String × Option Nat)) (target : Nat)
    (docs : List (String × String × String)) (dr : DocumentRevision)
    (acts : List (String × Nat × Nat)) (ap : ActionPlan)
    (b1 b2 b3 b4 approvedFlag : Bool) :
    (r.status ≠ Status.Draft →
      route_to_dept_head db r actor
        = (Except.error (Err.validation
            "Request must be in Draft status to route to department head"), db))
    ∧ (r.status ≠ Status.PendingDeptHead →
      dept_head_decision db r actor approvedFlag reason
        = (Except.error (Err.validation
            "Request must be pending department head approval"), db))
    ∧ (r.status ≠ Status.PendingQARegistration →
      qa_registration db r actor fccArg impact evs target
        = (Except.error (Err.validation "Request must be pending QA registration"), db))
    ∧ (r.status ≠ Status.PendingCFTEvaluation →
      cft_evaluation db r actor department it dec rl nts
        = (Except.error (Err.validation "Request must be pending CFT evaluation"), db))
    ∧ (r.status ≠ Status.PendingDocumentUpdate → r.status ≠ Status.PendingActionPlan →
      document_management db r actor docs
        = (Except.error (Err.validation
            "Request is not in the correct status for document management"), db))
    ∧ (r.status ≠ Status.PendingActionPlan →
      action_plan_management db r actor acts
        = (Except.error (Err.validation "Request must be pending action plan"), db))
    ∧ (r.status ≠ Status.PendingQAEvaluation →
      qa_final_evaluation db r actor b1 b2 b3 b4 com
        = (Except.error (Err.validation "Request must be pending QA evaluation"), db))
    ∧ (r.status ≠ Status.PendingQAHeadApproval →
      qa_head_approval db r actor approvedFlag reason
        = (Except.error (Err.validation "Request must be pending QA head approval"), db))
    ∧ (r.status ≠ Status.PendingVerification →
      post_implementation_verification db r actor b1 b2 b3 com
        = (Except.error (Err.validation "Request must be pending verification"), db))
    ∧ (r.status ≠ Status.Closed →
      qa_closure db r actor
        = (Except.error (Err.validation "Request must be closed before QA closure"), db))
    ∧ (∀ ra, findRiskAssessment db r.id = some ra → ra.assigned_to = actor →
        ∃ ra1 db1, complete_risk_assessment db r actor f rec = (Except.ok ra1, db1))
    ∧ (ap.responsible_person = actor →
        ∃ a1 db1, complete_action_plan db r actor ap notes = (Except.ok a1, db1))
    ∧ (∃ d1 db1, complete_document_revision db r actor dr notes = (Except.ok d1, db1)) := by
  refine ⟨?_, ?_, ?_, ?_, ?_, ?_, ?_, ?_, ?_, ?_, ?_, ?_, ?_⟩
  · intro h
    unfold route_to_dept_head
    rw [if_pos h]
  · intro h
    unfold dept_head_decision
    rw [if_pos h]
  · intro h
    unfold qa_registration
    rw [if_pos h]
  · intro h
    unfold cft_evaluation
    rw [if_pos h]
  · intro h1 h2
    unfold document_management
    rw [if_pos ⟨h1, h2⟩]
  · intro h
    unfold action_plan_management
    rw [if_pos h]
  · intro h
    unfold qa_final_evaluation
    rw [if_pos h]
  · intro h
    unfold qa_head_approval
    rw [if_pos h]
  · intro h
    unfold post_implementation_verification
    rw [if_pos h]
  · intro h
    unfold qa_closure
    rw [if_pos h]
  · intro ra hra hasg
    unfold complete_risk_assessment
    simp only [hra]
    rw [if_neg (by simp [hasg])]
    exact ⟨_, _, rfl⟩
  · intro hresp
    rw [complete_action_plan_eq db r actor ap notes hresp]
    split
    · exact ⟨_, _, rfl⟩
    · exact ⟨_, _, rfl⟩
  · unfold complete_document_revision
    dsimp only
    split
    · split
      · exact ⟨_, _, rfl⟩
      · exact ⟨_, _, rfl⟩
    · exact ⟨_, _, rfl⟩

/-- Witness for the amended C2: `wReq` is pending CFT evaluation, so
routing it to the department head fails with the status error and leaves
the database unchanged, while `complete_risk_assessment` (no status guard)
succeeds on the same request. -/
theorem C2_amended_status_guards_witness :
    wReq.status ≠ Status.Draft
    ∧ route_to_dept_head wDBra wReq 10
      = (Except.error (Err.validation
          "Request must be in Draft status to route to department head"), wDBra)
    ∧ findRiskAssessment wDBra wReq.id = some c5ra ∧ c5ra.assigned_to = 20
    ∧ (∃ ra1 db1, complete_risk_assessment wDBra wReq 20 "f" "r" = (Except.ok ra1, db1)) :=
  ⟨by decide,
    (C2_amended_status_guards wDBra wReq 10 deptQA "" "" "" "" "f" "r" "" ""
      Decision.Approved none "" [] 0 [] wDR [] wAP1 false false false false false).1
      (by decide),
    by decide, by decide,
    (C2_amended_status_guards wDBra wReq 20 deptQA "" "" "" "" "f" "r" "" ""
      Decision.Approved none "" [] 0 [] wDR [] wAP1 false false false false
      false).2.2.2.2.2.2.2.2.2.2.1 c5ra (by decide) (by decide)⟩

theorem okOrUnchanged_route (db : DB) (r : Request) (actor : Nat) :
    (∃ x, (route_to_dept_head db r actor).1 = Except.ok x)
    ∨ (route_to_dept_head db r actor).2 = db := by
  unfold route_to_dept_head
  dsimp only
  repeat' split
  all_goals
    first
    | exact Or.inl ⟨_, rfl⟩
    | exact Or.inr rfl

theorem okOrUnchanged_dept_head (db : DB) (r : Request) (actor : Nat) (approved : Bool)
    (reason : String) :
    (∃ x, (dept_head_decision db r actor approved reason).1 = Except.ok x)
    ∨ (dept_head_decision db r actor approved reason).2 = db := by
  unfold dept_head_decision
  dsimp only
  repeat' split
  all_goals
    first
    | exact Or.inl ⟨_, rfl⟩
    | exact Or.inr rfl

theorem okOrUnchanged_qa_registration (db : DB) (r : Request) (actor : Nat)
    (fccArg : Option String) (impact : String) (evs : List (Option String × Option Nat))
    (target : Nat) :
    (∃ x, (qa_registration db r actor fccArg impact evs target).1 = Except.ok x)
    ∨ (qa_registration db r actor fccArg impact evs target).2 = db := by
  unfold qa_registration
  dsimp only
  repeat' split
  all_goals
    first
    | exact Or.inl ⟨_, rfl⟩
    | exact Or.inr rfl

theorem okOrUnchanged_cft (db : DB) (r : Request) (actor : Nat) (department : Department)
    (it : String) (dec : Decision) (rl nts : String) :
    (∃ x, (cft_evaluation db r actor department it dec rl nts).1 = Except.ok x)
    ∨ (cft_evaluation db r actor department it dec rl nts).2 = db := by
  unfold cft_evaluation
  dsimp only
  repeat' split
  all_goals
    first
    | exact Or.inl ⟨_, rfl⟩
    | exact Or.inr rfl

theorem okOrUnchanged_complete_ra (db : DB) (r : Request) (actor : Nat) (f rec : String) :
    (∃ x, (complete_risk_assessment db r actor f rec).1 = Except.ok x)
    ∨ (complete_risk_assessment db r actor f rec).2 = db := by
  unfold complete_risk_assessment
  dsimp only
  repeat' split
  all_goals
    first
    | exact Or.inl ⟨_, rfl⟩
    | exact Or.inr rfl

theorem okOrUnchanged_document_management (db : DB) (r : Request) (actor : Nat)
    (docs : List (String × String × String)) :
    (∃ x, (document_management db r actor docs).1 = Except.ok x)
    ∨ (document_management db r actor docs).2 = db := by
  unfold document_management
  dsimp only
  repeat' split
  all_goals
    first
    | exact Or.inl ⟨_, rfl⟩
    | exact Or.inr rfl

theorem okOrUnchanged_complete_doc_revision (db : DB) (r : Request) (actor : Nat)
    (dr : DocumentRevision) (notes : String) :
    (∃ x, (complete_document_revision db r actor dr notes).1 = Except.ok x)
    ∨ (complete_document_revision db r actor dr notes).2 = db := by
  unfold complete_document_revision
  dsimp only
  repeat' split
  all_goals
    first
    | exact Or.inl ⟨_, rfl⟩
    | exact Or.inr rfl

theorem okOrUnchanged_action_plan_management (db : DB) (r : Request) (actor : Nat)
    (acts : List (String × Nat × Nat)) :
    (∃ x, (action_plan_management db r actor acts).1 = Except.ok x)
    ∨ (action_plan_management db r actor acts).2 = db := by
  unfold action_plan_management
  dsimp only
  repeat' split
  all_goals
    first
    | exact Or.inl ⟨_, rfl⟩
    | exact Or.inr rfl

theorem okOrUnchanged_complete_action_plan (db : DB) (r : Request) (actor : Nat)
    (ap : ActionPlan) (notes : String) :
    (∃ x, (complete_action_plan db r actor ap notes).1 = Except.ok x)
    ∨ (complete_action_plan db r actor ap notes).2 = db := by
  unfold complete_action_plan
  dsimp only
  repeat' split
  all_goals
    first
    | exact Or.inl ⟨_, rfl⟩
    | exact Or.inr rfl

theorem okOrUnchanged_qa_final (db : DB) (r : Request) (actor : Nat) (b1 b2 b3 b4 : Bool)
    (com : String) :
    (∃ x, (qa_final_evaluation db r actor b1 b2 b3 b4 com).1 = Except.ok x)
    ∨ (qa_final_evaluation db r actor b1 b2 b3 b4 com).2 = db := by
  unfold qa_final_evaluation
  dsimp only
  repeat' split
  all_goals
    first
    | exact Or.inl ⟨_, rfl⟩
    | exact Or.inr rfl

theorem okOrUnchanged_qa_head (db : DB) (r : Request) (actor : Nat) (approved : Bool)
    (reason : String) :
    (∃ x, (qa_head_approval db r actor approved reason).1 = Except.ok x)
    ∨ (qa_head_approval db r actor approved reason).2 = db := by
  unfold qa_head_approval
  dsimp only
  repeat' split
  all_goals
    first
    | exact Or.inl ⟨_, rfl⟩
    | exact Or.inr rfl

theorem okOrUnchanged_qa_closure (db : DB) (r : Request) (actor : Nat) :
    (∃ x, (qa_closure db r actor).1 = Except.ok x)
    ∨ (qa_closure db r actor).2 = db := by
  unfold qa_closure
  dsimp only
  repeat' split
  all_goals
    first
    | exact Or.inl ⟨_, rfl⟩
    | exact Or.inr rfl

theorem okOrUnchanged_verification (db : DB) (r : Request) (actor : Nat)
    (b1 b2 b3 : Bool) (com : String) :
    (∃ x, (post_implementation_verification db r actor b1 b2 b3 com).1 = Except.ok x)
    ∨ (post_implementation_verification db r actor b1 b2 b3 com).2 = db := by
  unfold post_implementation_verification
  dsimp only
  split
  · exact Or.inr rfl
  · split
    · exact Or.inr rfl
    · split
      · rename_i e heq
        unfold qa_closure at heq
        rw [if_neg (by simp)] at heq
        simp at heq
      · exact Or.inl ⟨_, rfl⟩

/-- A department with no head assigned, for the initiate counterexample. -/
def deptNoHead : Department := { code := "RD", head := none }

/-- A request sitting at PendingVerification, for the Verify conjuncts. -/
def c6vr : Request :=
  { id := 1, temporary_cc_number := "REQ/CC/25/RD/00001", final_cc_number := none,
    initiator := 1, department := deptNoHead, title := "t", description := "d",
    impact_level := some ImpactLevel.Minor, target_completion_time := none,
    qa_registered_by := some 2, qa_registration_date := some 0,
    status := Status.PendingVerification, current_step := 10, closed_at := none,
    rejection_reason := "", rejected_by := none, rejected_at := none }

/-- Counterexample for C6: `initiate_request` on a department without a head
raises, yet the freshly created Draft request and its initiation history entry
are already persisted (there is no transaction wrapper in `workflow.py`). -/
theorem C6_counterexample_initiate_partial_commit :
    (initiate_request emptyDB 1 (some deptNoHead) "t" "d").1
      = Except.error (Err.validation "Department does not have a department head assigned")
    ∧ (initiate_request emptyDB 1 (some deptNoHead) "t" "d").2.requests.length = 1
    ∧ (initiate_request emptyDB 1 (some deptNoHead) "t" "d").2.history.length = 1
    ∧ ((initiate_request emptyDB 1 (some deptNoHead) "t" "d").2.requests.map
        Request.status) = [Status.Draft] := by
  decide

/-- C6 (amended): atomicity on error holds for every operation except
`initiate_request`.  (i) Verify with a false boolean fails with the
validation error and returns the database unchanged (so the status stays
PendingVerification and closed_at stays unset); (ii) Initiate with no
department fails cleanly, but (iii) Initiate on a department without a head
raises after persisting the new request and one history entry; (iv) every
other operation that returns an error leaves the database exactly as it
was before the call. -/
theorem C6_amended_atomicity (db : DB) (r : Request) (actor user : Nat)
    (dept : Department) (title description : String) (b1 b2 b3 b4 : Bool)
    (com : String) (approved : Bool) (reason : String) (fccArg : Option String)
    (impact : String) (evs : List (Option String × Option Nat)) (target : Nat)
    (it : String) (dec : Decision) (rl nts f rec notes : String)
    (docs : List (String × String × String)) (dr : DocumentRevision)
    (acts : List (String × Nat × Nat)) (ap : ActionPlan) :
    (r.status = Status.PendingVerification → ¬ (b1 = true ∧ b2 = true ∧ b3 = true) →
      post_implementation_verification db r actor b1 b2 b3 com
        = (Except.error (Err.validation "All verification checks must pass"), db))
    ∧ (initiate_request db user none title description
        = (Except.error (Err.validation "Department is required to initiate a request"), db))
    ∧ (dept.head = none →
        (initiate_request db user (some dept) title description).1
          = Except.error (Err.validation "Department does not have a department head assigned")
        ∧ (initiate_request db user (some dept) title description).2.requests.length
            = db.requests.length + 1
        ∧ (initiate_request db user (some dept) title description).2.history.length
            = db.history.length + 1)
    ∧ (∀ e, (route_to_dept_head db r actor).1 = Except.error e →
        (route_to_dept_head db r actor).2 = db)
    ∧ (∀ e, (dept_head_decision db r actor approved reason).1 = Except.error e →
        (dept_head_decision db r actor approved reason).2 = db)
    ∧ (∀ e, (qa_registration db r actor fccArg impact evs target).1 = Except.error e →
        (qa_registration db r actor fccArg impact evs target).2 = db)
    ∧ (∀ e, (cft_evaluation db r actor dept it dec rl nts).1 = Except.error e →
        (cft_evaluation db r actor dept it dec rl nts).2 = db)
    ∧ (∀ e, (complete_risk_assessment db r actor f rec).1 = Except.error e →
        (complete_risk_assessment db r actor f rec).2 = db)
    ∧ (∀ e, (document_management db r actor docs).1 = Except.error e →
        (document_management db r actor docs).2 = db)
    ∧ (∀ e, (complete_document_revision db r actor dr notes).1 = Except.error e →
        (complete_document_revision db r actor dr notes).2 = db)
    ∧ (∀ e, (action_plan_management db r actor acts).1 = Except.error e →
        (action_plan_management db r actor acts).2 = db)
    ∧ (∀ e, (complete_action_plan db r actor ap notes).1 = Except.error e →
        (complete_action_plan db r actor ap notes).2 = db)
    ∧ (∀ e, (qa_final_evaluation db r actor b1 b2 b3 b4 com).1 = Except.error e →
        (qa_final_evaluation db r actor b1 b2 b3 b4 com).2 = db)
    ∧ (∀ e, (qa_head_approval db r actor approved reason).1 = Except.error e →
        (qa_head_approval db r actor approved reason).2 = db)
    ∧ (∀ e, (qa_closure db r actor).1 = Except.error e →
        (qa_closure db r actor).2 = db)
    ∧ (∀ e, (post_implementation_verification db r actor b1 b2 b3 com).1 = Except.error e →
        (post_implementation_verification db r actor b1 b2 b3 com).2 = db) := by
  refine ⟨?_, ?_, ?_, ?_, ?_, ?_, ?_, ?_, ?_, ?_, ?_, ?_, ?_, ?_, ?_, ?_⟩
  · intro hst hb
    unfold post_implementation_verification
    rw [if_neg (by simp [hst]), if_pos hb]
  · rfl
  · intro hnone
    refine ⟨?_, ?_, ?_⟩ <;>
      simp [initiate_request, route_to_dept_head, hnone, log_workflow_history]
  · intro e he
    rcases okOrUnchanged_route db r actor with ⟨x, hx⟩ | h
    · rw [he] at hx
      simp at hx
    · exact h
  · intro e he
    rcases okOrUnchanged_dept_head db r actor approved reason with ⟨x, hx⟩ | h
    · rw [he] at hx
      simp at hx
    · exact h
  · intro e he
    rcases okOrUnchanged_qa_registration db r actor fccArg impact evs target with ⟨x, hx⟩ | h
    · rw [he] at hx
      simp at hx
    · exact h
  · intro e he
    rcases okOrUnchanged_cft db r actor dept it dec rl nts with ⟨x, hx⟩ | h
    · rw [he] at hx
      simp at hx
    · exact h
  · intro e he
    rcases okOrUnchanged_complete_ra db r actor f rec with ⟨x, hx⟩ | h
    · rw [he] at hx
      simp at hx
    · exact h
  · intro e he
    rcases okOrUnchanged_document_management db r actor docs with ⟨x, hx⟩ | h
    · rw [he] at hx
      simp at hx
    · exact h
  · intro e he
    rcases okOrUnchanged_complete_doc_revision db r actor dr notes with ⟨x, hx⟩ | h
    · rw [he] at hx
      simp at hx
    · exact h
  · intro e he
    rcases okOrUnchanged_action_plan_management db r actor acts with ⟨x, hx⟩ | h
    · rw [he] at hx
      simp at hx
    · exact h
  · intro e he
    rcases okOrUnchanged_complete_action_plan db r actor ap notes with ⟨x, hx⟩ | h
    · rw [he] at hx
      simp at hx
    · exact h
  · intro e he
    rcases okOrUnchanged_qa_final db r actor b1 b2 b3 b4 com with ⟨x, hx⟩ | h
    · rw [he] at hx
      simp at hx
    · exact h
  · intro e he
    rcases okOrUnchanged_qa_head db r actor approved reason with ⟨x, hx⟩ | h
    · rw [he] at hx
      simp at hx
    · exact h
  · intro e he
    rcases okOrUnchanged_qa_closure db r actor with ⟨x, hx⟩ | h
    · rw [he] at hx
      simp at hx
    · exact h
  · intro e he
    rcases okOrUnchanged_verification db r actor b1 b2 b3 com with ⟨x, hx⟩ | h
    · rw [he] at hx
      simp at hx
    · exact h

/-- Witness for C6: at PendingVerification with the first boolean false,
Verify fails and hands back the very same database; Initiate without a
department fails cleanly; Initiate on the headless department errors yet
adds one request and one history row; and a guarded operation called in the
wrong status (route_to_dept_head on a PendingVerification request) leaves
the database untouched. -/
theorem C6_amended_atomicity_witness :
    c6vr.status = Status.PendingVerification
    ∧ post_implementation_verification emptyDB c6vr 1 false true true ""
        = (Except.error (Err.validation "All verification checks must pass"), emptyDB)
    ∧ initiate_request emptyDB 1 none "t" "d"
        = (Except.error (Err.validation "Department is required to initiate a request"), emptyDB)
    ∧ deptNoHead.head = none
    ∧ (initiate_request emptyDB 1 (some deptNoHead) "t" "d").2.requests.length
        = emptyDB.requests.length + 1
    ∧ (route_to_dept_head emptyDB c6vr 1).1
        = Except.error (Err.validation "Request must be in Draft status to route to department head")
    ∧ (route_to_dept_head emptyDB c6vr 1).2 = emptyDB := by
  have h := C6_amended_atomicity emptyDB c6vr 1 1 deptNoHead "t" "d" false true true true
    "" true "" none "Minor" [] 0 "QA" Decision.Approved "" "" "" "" "" [] wDR [] wAP1
  refine ⟨rfl, h.1 rfl (by decide), h.2.1, rfl, (h.2.2.1 rfl).2.1, rfl,
    h.2.2.2.1 (Err.validation "Request must be in Draft status to route to department head") rfl⟩

/-- A Minor-impact request sitting at PendingQAEvaluation, for the QA final
evaluation bug. -/
def c4r : Request :=
  { id := 1, temporary_cc_number := "REQ/CC/25/RD/00001",
    final_cc_number := some "REQ/CC/25/RD/00001", initiator := 1,
    department := { code := "RD", head := some 3 }, title := "t",
    description := "d", impact_level := some ImpactLevel.Minor,
    target_completion_time := some 7, qa_registered_by := some 2,
    qa_registration_date := some 0, status := Status.PendingQAEvaluation,
    current_step := 8, closed_at := none, rejection_reason := "",
    rejected_by := none, rejected_at := none }

/-- The database holding just that request. -/
def c4db : DB := { emptyDB with requests := [c4r], nextRequestId := 2 }

/-- C4 (code bug): `qa_final_evaluation` accepts its
regulatory_filings_complete argument but never reads it, so with the three
checked booleans true and regulatory filings NOT complete the call still
succeeds and advances the request to PendingQAHeadApproval, contradicting
the docstring and the spec; flipping the unread boolean changes nothing. -/
theorem C4_regulatory_filings_ignored :
    (qa_final_evaluation c4db c4r 2 true true true false "ok").1
      = Except.ok { c4r with status := Status.PendingQAHeadApproval, current_step := 9 }
    ∧ ((qa_final_evaluation c4db c4r 2 true true true false "ok").2.requests.map
        Request.status) = [Status.PendingQAHeadApproval]
    ∧ qa_final_evaluation c4db c4r 2 true true true false "ok"
      = qa_final_evaluation c4db c4r 2 true true true true "ok" := by
  decide

theorem evalFold_skip (rid : Nat) (evs : List (Option String × Option Nat)) (db : DB)
    (h : ∀ ed ∈ evs, ed.1 = none ∨ ed.2 = none) :
    evs.foldl
      (fun db ed =>
        match ed.1, ed.2 with
        | some dept, some evaluator =>
            if db.evaluators.any (fun a =>
                a.request_id == rid && a.dept == dept && a.evaluator == evaluator)
            then db
            else { db with evaluators := db.evaluators ++
                    [{ request_id := rid, dept := dept, evaluator := evaluator }] }
        | _, _ => db) db = db := by
  induction evs generalizing db with
  | nil => rfl
  | cons ed tl ih =>
      have hed := h ed (List.mem_cons_self ed tl)
      have htl : ∀ x ∈ tl, x.1 = none ∨ x.2 = none :=
        fun x hx => h x (List.mem_cons_of_mem ed hx)
      obtain ⟨a, b⟩ := ed
      rw [List.foldl_cons]
      rcases hed with h1 | h1
      · dsimp only at h1
        subst h1
        exact ih db htl
      · dsimp only at h1
        subst h1
        cases a
        · exact ih db htl
        · exact ih db htl

/-- C10: when QA registration is given a Major or Critical impact and every
evaluator entry is skipped (missing department or evaluator), the request
does not stay at PendingCFTEvaluation: the auto-created risk assessment sees
equal evaluator and evaluation counts and advances it straight to
PendingRiskAssessment at step 5. -/
theorem C10_empty_cft_skips_to_risk_assessment (db : DB) (r : Request) (actor : Nat)
    (fccArg : Option String) (impact : String) (evs : List (Option String × Option Nat))
    (target : Nat)
    (hst : r.status = Status.PendingQARegistration)
    (himp : ImpactLevel.fromString impact = some ImpactLevel.Major
          ∨ ImpactLevel.fromString impact = some ImpactLevel.Critical)
    (hskip : ∀ ed ∈ evs, ed.1 = none ∨ ed.2 = none)
    (hcnt : evaluatorCount db r.id = evaluationCount db r.id)
    (hra : findRiskAssessment db r.id = none)
    (hfcc : ∀ q ∈ db.requests, q.final_cc_number = none) :
    ∃ r1, (qa_registration db r actor fccArg impact evs target).1 = Except.ok r1
      ∧ r1.status = Status.PendingRiskAssessment ∧ r1.current_step = 5 := by
  have hcoll : ∀ s : String,
      ¬ (db.requests.any (fun q => q.final_cc_number == some s && q.id != r.id) = true) := by
    intro s hq
    rw [List.any_eq_true] at hq
    obtain ⟨q, hqm, hqq⟩ := hq
    rw [hfcc q hqm] at hqq
    simp at hqq
  unfold findRiskAssessment at hra
  unfold evaluatorCount evaluationCount at hcnt
  rcases himp with h | h
  all_goals
    unfold qa_registration create_risk_assessment saveRequest log_workflow_history
      findRiskAssessment evaluatorCount evaluationCount
    rw [if_neg (by simp [hst])]
    rw [h]
    dsimp only
    rw [if_neg (hcoll _)]
    rw [evalFold_skip r.id evs _ hskip]
    rw [if_pos (by first | exact Or.inl rfl | exact Or.inr rfl)]
    rw [hra]
    dsimp only
    rw [if_pos rfl, if_pos hcnt]
    exact ⟨_, rfl, rfl, rfl⟩

/-- A request pending QA registration, for the C10 witness. -/
def c10r : Request :=
  { id := 1, temporary_cc_number := "REQ/CC/25/RD/00001", final_cc_number := none,
    initiator := 1, department := { code := "RD", head := some 3 }, title := "t",
    description := "d", impact_level := none, target_completion_time := none,
    qa_registered_by := none, qa_registration_date := none,
    status := Status.PendingQARegistration, current_step := 3, closed_at := none,
    rejection_reason := "", rejected_by := none, rejected_at := none }

/-- The database holding just that request. -/
def c10db : DB := { emptyDB with requests := [c10r], nextRequestId := 2 }

/-- Witness for C10: registering with impact Major and two skipped evaluator
entries (one missing the department, one missing the evaluator) lands the
request at PendingRiskAssessment, step 5. -/
theorem C10_empty_cft_skips_to_risk_assessment_witness :
    c10r.status = Status.PendingQARegistration
    ∧ ImpactLevel.fromString "Major" = some ImpactLevel.Major
    ∧ (∀ ed ∈ ([(none, some 5), (some "QA", none)] : List (Option String × Option Nat)),
        ed.1 = none ∨ ed.2 = none)
    ∧ evaluatorCount c10db c10r.id = evaluationCount c10db c10r.id
    ∧ findRiskAssessment c10db c10r.id = none
    ∧ (∀ q ∈ c10db.requests, q.final_cc_number = none)
    ∧ ∃ r1, (qa_registration c10db c10r 2 none "Major"
          [(none, some 5), (some "QA", none)] 7).1 = Except.ok r1
        ∧ r1.status = Status.PendingRiskAssessment ∧ r1.current_step = 5 := by
  refine ⟨rfl, rfl, by decide, rfl, rfl, by decide, ?_⟩
  exact C10_empty_cft_skips_to_risk_assessment c10db c10r 2 none "Major"
    [(none, some 5), (some "QA", none)] 7 rfl (Or.inl rfl) (by decide) rfl rfl (by decide)
